import Mathlib

/-!
Shallow embedding of the workload-mutation engine of
`pkg/client/connector/install_actions.go`: the reversible actions
(`makePortSymbolicAction`, `addSymbolicPortAction`, `hideContainerPortAction`,
`addTrafficAgentAction`), the composed plans (`svcActions`,
`deploymentActions`) and the generic `doActions` / `undoActions` /
`isDoneActions` loops, together with theorems settling the specification
claims about them.

Go objects are mutated in place through pointers; here every action is a
function from the object to `Except String` of the new object.  Each concrete
action in the source first performs its lookup and returns the error before
any mutation, so an erroneous `Do`/`Undo` leaves the Go object unchanged;
the composed loops below make that explicit by pairing the (possibly
partially mutated) object with an optional error.
-/

/-- `intstr.IntOrString`: a struct with a discriminator plus both payload
fields.  Go's `==` on this struct compares all three fields, and
`swapPortName` writes `StrVal` directly, so the embedding keeps the full
struct rather than a sum type. -/
inductive IntOrStringKind where
  | int : IntOrStringKind
  | str : IntOrStringKind
deriving DecidableEq, Repr

/-- `intstr.IntOrString` (field `Type` is called `kind` because `Type` is a
Lean keyword). -/
structure IntOrString where
  kind : IntOrStringKind
  intVal : Int
  strVal : String
deriving DecidableEq, Repr

/-- `intstr.FromInt`. -/
def IntOrString.fromInt (n : Int) : IntOrString := ⟨.int, n, ""⟩

/-- `intstr.FromString`. -/
def IntOrString.fromString (s : String) : IntOrString := ⟨.str, 0, s⟩

/-- `corev1.ServicePort`: the fields the engine reads or writes. -/
structure ServicePort where
  name : String
  port : Int
  targetPort : IntOrString
deriving DecidableEq, Repr

/-- `kates.Service`: metadata name plus `Spec.Ports`. -/
structure Service where
  name : String
  ports : List ServicePort
deriving DecidableEq, Repr

/-- Go's `getPort` pattern: walk the ports slice, return a pointer to the
first entry satisfying the predicate and assign through it.  Embedded as
"replace the first match", returning `none` when no entry matches. -/
def replaceFirst (q : ServicePort → Bool) (g : ServicePort → ServicePort) :
    List ServicePort → Option (List ServicePort)
  | [] => none
  | p :: ps =>
    if q p then some (g p :: ps)
    else (replaceFirst q g ps).map (p :: ·)

-- makePortSymbolicAction ------------------------------------------------------

/-- `makePortSymbolicAction`: payload `{PortName, TargetPort, SymbolicName}`
(no json tags in the source, so the Go field names are the JSON keys). -/
structure makePortSymbolicAction where
  PortName : String
  TargetPort : Nat
  SymbolicName : String
deriving DecidableEq, Repr

/-- Predicate of `makePortSymbolicAction.getPort`: the port whose
`TargetPort` equals the argument (full struct equality) and whose `Name`
equals `m.PortName`. -/
def mpsMatch (m : makePortSymbolicAction) (tp : IntOrString) (p : ServicePort) : Bool :=
  p.targetPort == tp && p.name == m.PortName

/-- `makePortSymbolicAction.Do`: find the port via
`getPort(svc, intstr.FromInt(int(m.TargetPort)))` and set its `TargetPort`
to `intstr.FromString(m.SymbolicName)`. -/
def makePortSymbolicAction.Do (m : makePortSymbolicAction) (svc : Service) :
    Except String Service :=
  match replaceFirst (mpsMatch m (IntOrString.fromInt m.TargetPort))
      (fun p => { p with targetPort := IntOrString.fromString m.SymbolicName }) svc.ports with
  | some ps => .ok { svc with ports := ps }
  | none => .error ("unable to find target port " ++ m.PortName ++ " in Service " ++ svc.name)

/-- `makePortSymbolicAction.Undo`: find the port via
`getPort(svc, intstr.FromString(m.SymbolicName))` and restore
`intstr.FromInt(int(m.TargetPort))`. -/
def makePortSymbolicAction.Undo (m : makePortSymbolicAction) (svc : Service) :
    Except String Service :=
  match replaceFirst (mpsMatch m (IntOrString.fromString m.SymbolicName))
      (fun p => { p with targetPort := IntOrString.fromInt m.TargetPort }) svc.ports with
  | some ps => .ok { svc with ports := ps }
  | none => .error ("unable to find target port " ++ m.PortName ++ " in Service " ++ svc.name)

/-- `makePortSymbolicAction.IsDone`: `getPort(svc, FromString(SymbolicName))`
succeeds, i.e. some port matches the symbolic target port *and* the name. -/
def makePortSymbolicAction.IsDone (m : makePortSymbolicAction) (svc : Service) : Bool :=
  svc.ports.any (mpsMatch m (IntOrString.fromString m.SymbolicName))

-- addSymbolicPortAction -------------------------------------------------------

/-- `addSymbolicPortAction`: embeds `makePortSymbolicAction` (Go struct
embedding). -/
structure addSymbolicPortAction where
  toMakePortSymbolic : makePortSymbolicAction
deriving DecidableEq, Repr

/-- Predicate of `addSymbolicPortAction.getPort`: `TargetPort` is the unset
variant (`Type == Int && IntVal == 0`) and `Port` equals the target.  The
port `Name` is *not* consulted. -/
def aspMatch (target : Int) (p : ServicePort) : Bool :=
  p.targetPort.kind == .int && p.targetPort.intVal == 0 && p.port == target

/-- `addSymbolicPortAction.Do`: find the port via the numeric/unset lookup
and set its `TargetPort` to the symbolic string. -/
def addSymbolicPortAction.Do (m : addSymbolicPortAction) (svc : Service) :
    Except String Service :=
  match replaceFirst (aspMatch (m.toMakePortSymbolic.TargetPort : Int))
      (fun p => { p with targetPort := IntOrString.fromString m.toMakePortSymbolic.SymbolicName })
      svc.ports with
  | some ps => .ok { svc with ports := ps }
  | none => .error ("unable to find port in Service " ++ svc.name)

/-- `addSymbolicPortAction.Undo`: delegates to
`makePortSymbolicAction.getPort` (symbolic string *and* name must match) and
clears `TargetPort` to the zero value `intstr.IntOrString{}`. -/
def addSymbolicPortAction.Undo (m : addSymbolicPortAction) (svc : Service) :
    Except String Service :=
  match replaceFirst (mpsMatch m.toMakePortSymbolic
        (IntOrString.fromString m.toMakePortSymbolic.SymbolicName))
      (fun p => { p with targetPort := ⟨.int, 0, ""⟩ }) svc.ports with
  | some ps => .ok { svc with ports := ps }
  | none => .error ("unable to find target port " ++ m.toMakePortSymbolic.PortName
      ++ " in Service " ++ svc.name)

/-- `addSymbolicPortAction.IsDone` is inherited from the embedded
`makePortSymbolicAction`. -/
def addSymbolicPortAction.IsDone (m : addSymbolicPortAction) (svc : Service) : Bool :=
  m.toMakePortSymbolic.IsDone svc

example :
    makePortSymbolicAction.Do ⟨"http", 8080, "tel2px"⟩
      ⟨"hello", [⟨"http", 80, IntOrString.fromInt 8080⟩]⟩ =
    .ok ⟨"hello", [⟨"http", 80, IntOrString.fromString "tel2px"⟩]⟩ := rfl

-- Workload data model ---------------------------------------------------------

/-- `corev1.EnvVarSource`: only the downward-API `FieldRef.FieldPath` is ever
produced by the engine; other sources are carried opaquely by `EnvVar`s the
engine merely copies, so a plain field path suffices. -/
structure EnvVarSource where
  fieldPath : String
deriving DecidableEq, Repr

/-- `corev1.EnvVar`. -/
structure EnvVar where
  name : String
  value : String
  valueFrom : Option EnvVarSource
deriving DecidableEq, Repr

/-- `corev1.EnvFromSource`: the `Prefix` field (called `pfx`: the Go name is
rejected by Lean naming conventions here) plus the referenced source carried
opaquely. -/
structure EnvFromSource where
  pfx : String
  source : String
deriving DecidableEq, Repr

/-- `corev1.VolumeMount`: name and mount path; other fields are copied
verbatim by the engine and are omitted. -/
structure VolumeMount where
  name : String
  mountPath : String
deriving DecidableEq, Repr

/-- `corev1.ContainerPort`. -/
structure ContainerPort where
  name : String
  protocol : String
  containerPort : Int
deriving DecidableEq, Repr

/-- `corev1.HTTPGetAction`: the `Port` field (the only one the engine
touches). -/
structure HTTPGetAction where
  port : IntOrString
deriving DecidableEq, Repr

/-- `corev1.TCPSocketAction`. -/
structure TCPSocketAction where
  port : IntOrString
deriving DecidableEq, Repr

/-- `corev1.ExecAction`. -/
structure ExecAction where
  command : List String
deriving DecidableEq, Repr

/-- `corev1.Probe` with its `Handler`. -/
structure Probe where
  exec : Option ExecAction
  httpGet : Option HTTPGetAction
  tcpSocket : Option TCPSocketAction
deriving DecidableEq, Repr

/-- `corev1.Container`: the fields the engine reads or writes. -/
structure Container where
  name : String
  image : String
  args : List String
  ports : List ContainerPort
  env : List EnvVar
  envFrom : List EnvFromSource
  volumeMounts : List VolumeMount
  livenessProbe : Option Probe
  readinessProbe : Option Probe
  startupProbe : Option Probe
deriving DecidableEq, Repr

/-- `kates.Deployment`: metadata name plus `Spec.Template.Spec.Containers`
(the only parts of the pod template the engine touches). -/
structure Deployment where
  name : String
  containers : List Container
deriving DecidableEq, Repr

-- Fixed constants -------------------------------------------------------------

/-- Modelled from the spec: the fixed agent container name constant
(`agentContainerName`) is defined outside the provided sources; the spec's
glossary and test scenarios name the sidecar container `traffic-agent`. -/
def agentContainerName : String := "traffic-agent"

/-- Modelled from the spec: the traffic-manager app name used to build
`MANAGER_HOST` (`managerAppName`) is defined outside the provided sources;
the spec calls the manager deployment `traffic-manager`. -/
def managerAppName : String := "traffic-manager"

/-- Modelled from the spec: the manager namespace (`managerNamespace`, a
package variable set at connect time) is outside the provided sources; its
value only enters the `MANAGER_HOST` env value. -/
def managerNamespace : String := "ambassador"

/-- `envPrefix = "TEL_APP_"` (renamed: Lean naming conventions here reject
identifiers ending in the Go name). -/
def envPfx : String := "TEL_APP_"

/-- `telAppMountPoint = "/tel_app_mounts"`. -/
def telAppMountPoint : String := "/tel_app_mounts"

-- hideContainerPortAction -----------------------------------------------------

/-- `hideContainerPortAction` payload. -/
structure hideContainerPortAction where
  ContainerName : String
  PortName : String
  HiddenName : String
deriving DecidableEq, Repr

/-- Whether a container has a port with the given name (success of the inner
loop of `hideContainerPortAction.getPort`). -/
def hasPortNamed (nm : String) (c : Container) : Bool :=
  c.ports.any (·.name == nm)

/-- Rename the first port with name `frm` to `to_` (the assignment
`p.Name = to` through the pointer `getPort` returned). -/
def renameFirstPort (frm to_ : String) : List ContainerPort → List ContainerPort
  | [] => []
  | p :: ps =>
    if p.name == frm then { p with name := to_ } :: ps
    else p :: renameFirstPort frm to_ ps

/-- One probe's half of `swapPortName`: if the probe's `HTTPGet` or
`TCPSocket` port has `StrVal == from`, overwrite its `StrVal` with `to`
(the source writes `StrVal` directly without consulting `Type`). -/
def probeSwap (frm to_ : String) (pr : Probe) : Probe :=
  { pr with
    httpGet := pr.httpGet.map fun h =>
      if h.port.strVal == frm then { h with port := { h.port with strVal := to_ } } else h
    tcpSocket := pr.tcpSocket.map fun t =>
      if t.port.strVal == frm then { t with port := { t.port with strVal := to_ } } else t }

/-- `swapPortName(cn, p, from, to)`: rewrite the three probes of the
container and rename the first port named `frm` (the port `getPort` found). -/
def swapPortName (c : Container) (frm to_ : String) : Container :=
  { c with
    livenessProbe := c.livenessProbe.map (probeSwap frm to_)
    readinessProbe := c.readinessProbe.map (probeSwap frm to_)
    startupProbe := c.startupProbe.map (probeSwap frm to_)
    ports := renameFirstPort frm to_ c.ports }

/-- The container walk of `hideContainerPortAction.getPort` followed by the
mutation: the outer loop skips containers whose name differs from
`ContainerName` *and* containers of that name that lack a port named `frm`;
the first container passing both tests is transformed by `f`. -/
def hcpMutate (cn frm : String) (f : Container → Container) :
    List Container → Option (List Container)
  | [] => none
  | c :: cs =>
    if c.name == cn && hasPortNamed frm c then some (f c :: cs)
    else (hcpMutate cn frm f cs).map (c :: ·)

/-- `hideContainerPortAction.Do`: locate the port by `PortName`, set
`HiddenName` to `"tel2mv-" + p.Name` (where `p.Name = PortName`, the name it
was found under) and swap.  Returns the updated action because the source
mutates the action value itself, which is later serialized and used by
`Undo`. -/
def hideContainerPortAction.Do (h : hideContainerPortAction) (dep : Deployment) :
    Except String (hideContainerPortAction × Deployment) :=
  match hcpMutate h.ContainerName h.PortName
      (swapPortName · h.PortName ("tel2mv-" ++ h.PortName)) dep.containers with
  | some cs => .ok ({ h with HiddenName := "tel2mv-" ++ h.PortName },
      { dep with containers := cs })
  | none => .error ("unable to locate port " ++ h.PortName ++ " in container "
      ++ h.ContainerName ++ " in deployment " ++ dep.name)

/-- `hideContainerPortAction.IsDone`: `getPort(dep, HiddenName)` succeeds. -/
def hideContainerPortAction.IsDone (h : hideContainerPortAction) (dep : Deployment) : Bool :=
  dep.containers.any fun c => c.name == h.ContainerName && hasPortNamed h.HiddenName c

/-- `hideContainerPortAction.Undo`: locate the port by `HiddenName` and swap
back to `PortName`. -/
def hideContainerPortAction.Undo (h : hideContainerPortAction) (dep : Deployment) :
    Except String (hideContainerPortAction × Deployment) :=
  match hcpMutate h.ContainerName h.HiddenName (swapPortName · h.HiddenName h.PortName) dep.containers with
  | some cs => .ok (h, { dep with containers := cs })
  | none => .error ("unable to locate port " ++ h.PortName ++ " in container "
      ++ h.ContainerName ++ " in deployment " ++ dep.name)


-- addTrafficAgentAction -------------------------------------------------------

/-- Segment processing of Go `path/filepath.Clean` for the rooted paths this
engine produces: empty and `.` segments are dropped, `..` pops (and is
dropped at the root). `acc` is the stack of kept segments, most recent
first. -/
def cleanSegs (acc : List String) : List String → List String
  | [] => acc
  | s :: rest =>
    if s = "" || s = "." then cleanSegs acc rest
    else if s = ".." then cleanSegs acc.tail rest
    else cleanSegs (s :: acc) rest

/-- Go `filepath.Join(a, b)` for an absolute `a` (here always
`telAppMountPoint`): concatenate with a separator and clean. -/
def goFilepathJoin (a b : String) : String :=
  "/" ++ String.intercalate "/" (cleanSegs [] ((a ++ "/" ++ b).splitOn "/")).reverse

/-- `addTrafficAgentAction`: persisted port/image payload plus the
unexported `containerName` (not serialized; only needed by `Do`). -/
structure addTrafficAgentAction where
  ContainerPortName : String
  ContainerPortProto : String
  ContainerPortNumber : Nat
  ImageName : String
  containerName : String
deriving DecidableEq, Repr

/-- `addTrafficAgentAction.appContainer`: first container whose name is
`containerName`. -/
def addTrafficAgentAction.appContainer (ata : addTrafficAgentAction) (dep : Deployment) :
    Option Container :=
  dep.containers.find? (·.name == ata.containerName)

/-- `addTrafficAgentAction.appEnvironment`: the app env with every name
prefixed by `TEL_APP_`, followed by `TELEPRESENCE_CONTAINER` holding the app
container's name. -/
def addTrafficAgentAction.appEnvironment (appC : Container) : List EnvVar :=
  (appC.env.map fun ev => { ev with name := envPfx ++ ev.name })
    ++ [⟨"TELEPRESENCE_CONTAINER", appC.name, none⟩]

/-- `addTrafficAgentAction.agentEnvironment`. -/
def addTrafficAgentAction.agentEnvironment (agentName : String) (ata : addTrafficAgentAction)
    (appC : Container) : List EnvVar :=
  addTrafficAgentAction.appEnvironment appC
    ++ [⟨"LOG_LEVEL", "debug", none⟩,
        ⟨"AGENT_NAME", agentName, none⟩,
        ⟨"AGENT_POD_NAME", "", some ⟨"metadata.name"⟩⟩,
        ⟨"AGENT_NAMESPACE", "", some ⟨"metadata.namespace"⟩⟩,
        ⟨"APP_PORT", toString ata.ContainerPortNumber, none⟩]
    ++ (if appC.volumeMounts.length > 0 then
          [⟨"APP_MOUNTS", telAppMountPoint, none⟩,
           ⟨ envPfx ++ "TELEPRESENCE_MOUNTS",
             String.intercalate ":" (appC.volumeMounts.map (·.mountPath)), none⟩]
        else [])
    ++ [⟨"MANAGER_HOST", managerAppName ++ "." ++ managerNamespace, none⟩]

/-- `addTrafficAgentAction.agentEnvFrom`: each entry's prefix is rewritten to
`TEL_APP_ + original` (the empty-list case returns the input unchanged,
which coincides with the map). -/
def addTrafficAgentAction.agentEnvFrom (appEF : List EnvFromSource) : List EnvFromSource :=
  appEF.map fun e => { e with pfx := envPfx ++ e.pfx }

/-- `addTrafficAgentAction.agentVolumeMounts`: mount paths are remapped under
`telAppMountPoint` with `filepath.Join` (nil in = nil out coincides with the
map). -/
def addTrafficAgentAction.agentVolumeMounts (mounts : List VolumeMount) : List VolumeMount :=
  mounts.map fun m => { m with mountPath := goFilepathJoin telAppMountPoint m.mountPath }

/-- The container literal appended by `addTrafficAgentAction.Do`. -/
def addTrafficAgentAction.agentContainer (ata : addTrafficAgentAction) (depName : String)
    (appC : Container) : Container :=
  { name := agentContainerName
    image := ata.ImageName
    args := ["agent"]
    ports := [⟨ata.ContainerPortName, ata.ContainerPortProto, 9900⟩]
    env := addTrafficAgentAction.agentEnvironment depName ata appC
    envFrom := addTrafficAgentAction.agentEnvFrom appC.envFrom
    volumeMounts := addTrafficAgentAction.agentVolumeMounts appC.volumeMounts
    livenessProbe := none
    readinessProbe := some ⟨some ⟨["/bin/stat", "/tmp/agent/ready"]⟩, none, none⟩
    startupProbe := none }

/-- `addTrafficAgentAction.Do`: error when the app container is absent,
otherwise append the agent container to the pod template's containers. -/
def addTrafficAgentAction.Do (ata : addTrafficAgentAction) (dep : Deployment) :
    Except String Deployment :=
  match ata.appContainer dep with
  | none => .error ("unable to find app container " ++ ata.containerName
      ++ " in deployment " ++ dep.name)
  | some appC =>
    .ok { dep with containers := dep.containers ++ [ata.agentContainer dep.name appC] }

/-- `addTrafficAgentAction.IsDone`: a container named `agentContainerName`
exists. -/
def addTrafficAgentAction.IsDone (_ata : addTrafficAgentAction) (dep : Deployment) : Bool :=
  dep.containers.any (·.name == agentContainerName)

/-- The loop of `addTrafficAgentAction.Undo`: remove the first container
named `agentContainerName`, keeping the order of the rest (`copy` + truncate
in the source); when none exists the list is returned unchanged. -/
def removeFirstAgent : List Container → List Container
  | [] => []
  | c :: cs => if c.name == agentContainerName then cs else c :: removeFirstAgent cs

/-- `addTrafficAgentAction.Undo`: always returns nil error. -/
def addTrafficAgentAction.Undo (_ata : addTrafficAgentAction) (dep : Deployment) :
    Except String Deployment :=
  .ok { dep with containers := removeFirstAgent dep.containers }

-- Composed plans --------------------------------------------------------------

/-- The `action` interface values a `svcActions` plan can hold. -/
inductive svcAction where
  | mps : makePortSymbolicAction → svcAction
  | asp : addSymbolicPortAction → svcAction
deriving DecidableEq, Repr

/-- Dispatch of `action.Do` on a service plan child. -/
def svcAction.Do : svcAction → Service → Except String Service
  | .mps m, svc => m.Do svc
  | .asp a, svc => a.Do svc

/-- Dispatch of `action.Undo` on a service plan child. -/
def svcAction.Undo : svcAction → Service → Except String Service
  | .mps m, svc => m.Undo svc
  | .asp a, svc => a.Undo svc

/-- Dispatch of `action.IsDone` on a service plan child. -/
def svcAction.IsDone : svcAction → Service → Bool
  | .mps m, svc => m.IsDone svc
  | .asp a, svc => a.IsDone svc

/-- The loop of `doActions` (for a service plan): apply each child's `Do` in
order; the first error stops the loop, leaving the mutations of the already
applied children in place. -/
def doActionsSvc : List svcAction → Service → Service × Option String
  | [], svc => (svc, none)
  | a :: rest, svc =>
    match a.Do svc with
    | .ok svcN => doActionsSvc rest svcN
    | .error e => (svc, some e)

/-- The inner walk of `undoActions` once the list has been reversed. -/
def undoListSvc : List svcAction → Service → Service × Option String
  | [], svc => (svc, none)
  | a :: rest, svc =>
    match a.Undo svc with
    | .ok svcN => undoListSvc rest svcN
    | .error e => (svc, some e)

/-- The loop of `undoActions` (for a service plan): apply each child's
`Undo` from the last action to the first, failing fast. -/
def undoActionsSvc (l : List svcAction) (svc : Service) : Service × Option String :=
  undoListSvc l.reverse svc

/-- The loop of `isDoneActions` (for a service plan). -/
def isDoneActionsSvc : List svcAction → Service → Bool
  | [], _ => true
  | a :: rest, svc => a.IsDone svc && isDoneActionsSvc rest svc

/-- `svcActions`: version plus the two optional port actions. -/
structure svcActions where
  Version : String
  MakePortSymbolic : Option makePortSymbolicAction
  AddSymbolicPort : Option addSymbolicPortAction
deriving DecidableEq, Repr

/-- `svcActions.Actions()`: `MakePortSymbolic` first (when present), then
`AddSymbolicPort` (when present). -/
def svcActions.Actions (s : svcActions) : List svcAction :=
  (match s.MakePortSymbolic with | some m => [svcAction.mps m] | none => [])
    ++ (match s.AddSymbolicPort with | some a => [svcAction.asp a] | none => [])

/-- `svcActions.Do = doActions(s, svc)`. -/
def svcActions.Do (s : svcActions) (svc : Service) : Service × Option String :=
  doActionsSvc s.Actions svc

/-- `svcActions.Undo = undoActions(s, svc)`. -/
def svcActions.Undo (s : svcActions) (svc : Service) : Service × Option String :=
  undoActionsSvc s.Actions svc

/-- `svcActions.IsDone = isDoneActions(s, svc)`. -/
def svcActions.IsDone (s : svcActions) (svc : Service) : Bool :=
  isDoneActionsSvc s.Actions svc

/-- The `action` interface values a `deploymentActions` plan can hold.
`hideContainerPortAction.Do` mutates the action value itself (it stores the
generated `HiddenName`), so deployment children are threaded through `Do`. -/
inductive depAction where
  | hide : hideContainerPortAction → depAction
  | addAgent : addTrafficAgentAction → depAction
deriving DecidableEq, Repr

/-- Dispatch of `action.Do` on a deployment plan child, returning the
possibly updated action alongside the object. -/
def depAction.Do : depAction → Deployment → Except String (depAction × Deployment)
  | .hide h, dep => (h.Do dep).map fun r => (.hide r.1, r.2)
  | .addAgent a, dep => (a.Do dep).map fun d => (.addAgent a, d)

/-- Dispatch of `action.Undo` on a deployment plan child. -/
def depAction.Undo : depAction → Deployment → Except String Deployment
  | .hide h, dep => (h.Undo dep).map (·.2)
  | .addAgent a, dep => a.Undo dep

/-- Dispatch of `action.IsDone` on a deployment plan child. -/
def depAction.IsDone : depAction → Deployment → Bool
  | .hide h, dep => h.IsDone dep
  | .addAgent a, dep => a.IsDone dep

/-- The loop of `doActions` (for a deployment plan): apply each child's `Do`
in order, collecting the updated children (in Go the loop mutates the
pointed-to actions); the first error stops the loop without rolling back. -/
def doActionsDep : List depAction → Deployment → List depAction × Deployment × Option String
  | [], dep => ([], dep, none)
  | a :: rest, dep =>
    match a.Do dep with
    | .ok (aN, depN) =>
      let r := doActionsDep rest depN
      (aN :: r.1, r.2.1, r.2.2)
    | .error e => (a :: rest, dep, some e)

/-- The inner walk of `undoActions` (deployment) once the list has been
reversed. -/
def undoListDep : List depAction → Deployment → Deployment × Option String
  | [], dep => (dep, none)
  | a :: rest, dep =>
    match a.Undo dep with
    | .ok depN => undoListDep rest depN
    | .error e => (dep, some e)

/-- The loop of `undoActions` (for a deployment plan): children undone in
reverse order, failing fast. -/
def undoActionsDep (l : List depAction) (dep : Deployment) : Deployment × Option String :=
  undoListDep l.reverse dep

/-- The loop of `isDoneActions` (for a deployment plan). -/
def isDoneActionsDep : List depAction → Deployment → Bool
  | [], _ => true
  | a :: rest, dep => a.IsDone dep && isDoneActionsDep rest dep

/-- `deploymentActions`: version, the referenced service (no json tag in the
source), the optional service port name, and the two optional workload
actions. -/
structure deploymentActions where
  Version : String
  ReferencedService : String
  ReferencedServicePortName : String
  HideContainerPort : Option hideContainerPortAction
  AddTrafficAgent : Option addTrafficAgentAction
deriving DecidableEq, Repr

/-- `deploymentActions.Actions()`: `HideContainerPort` first (when present),
then `AddTrafficAgent` (when present). -/
def deploymentActions.Actions (d : deploymentActions) : List depAction :=
  (match d.HideContainerPort with | some h => [depAction.hide h] | none => [])
    ++ (match d.AddTrafficAgent with | some a => [depAction.addAgent a] | none => [])

/-- `deploymentActions.Do = doActions(d, dep)` (with the updated children
returned explicitly). -/
def deploymentActions.Do (d : deploymentActions) (dep : Deployment) :
    List depAction × Deployment × Option String :=
  doActionsDep d.Actions dep

/-- `deploymentActions.Undo = undoActions(d, dep)`. -/
def deploymentActions.Undo (d : deploymentActions) (dep : Deployment) :
    Deployment × Option String :=
  undoActionsDep d.Actions dep

/-- `deploymentActions.IsDone = isDoneActions(d, dep)`. -/
def deploymentActions.IsDone (d : deploymentActions) (dep : Deployment) : Bool :=
  isDoneActionsDep d.Actions dep

-- JSON field names ------------------------------------------------------------

/-- One exported Go struct field as seen by `encoding/json`: the Go name and
the name given in the `json:"..."` tag, when any. -/
structure goField where
  goName : String
  jsonTag : Option String
deriving DecidableEq, Repr

/-- `encoding/json` key rule: the tag name when present, otherwise the Go
field name verbatim. -/
def goField.jsonKey (f : goField) : String :=
  f.jsonTag.getD f.goName

/-- The exported fields of `deploymentActions` with their tags, transcribed
from the struct declaration (`ReferencedService` carries no tag; the
unexported `containerName` of the agent action is not serialized and has no
descriptor). -/
def deploymentActionsFields : List goField :=
  [⟨"Version", some "version"⟩,
   ⟨"ReferencedService", none⟩,
   ⟨"ReferencedServicePortName", some "referenced_service_port_name"⟩,
   ⟨"HideContainerPort", some "hide_container_port"⟩,
   ⟨"AddTrafficAgent", some "add_traffic_agent"⟩]

/-- The exported fields of `addTrafficAgentAction` with their tags. -/
def addTrafficAgentActionFields : List goField :=
  [⟨"ContainerPortName", some "container_port_name"⟩,
   ⟨"ContainerPortProto", some "container_port_proto"⟩,
   ⟨"ContainerPortNumber", some "app_port"⟩,
   ⟨"ImageName", some "image_name"⟩]

-- Legality predicates ---------------------------------------------------------

/-- Neither the `HTTPGet` nor the `TCPSocket` port of the probe references
the string `nm`. -/
def probeNoStrRef (nm : String) (pr : Probe) : Bool :=
  (match pr.httpGet with
   | some h => !(h.port.strVal == nm)
   | none => true) &&
  (match pr.tcpSocket with
   | some t => !(t.port.strVal == nm)
   | none => true)

/-- Lift `probeNoStrRef` to an optional probe (an absent probe trivially
passes). -/
def optProbeNoRef (nm : String) : Option Probe → Bool
  | some pr => probeNoStrRef nm pr
  | none => true

/-- None of the three probes of the container references the string `nm`. -/
def noStrRef (nm : String) (c : Container) : Bool :=
  optProbeNoRef nm c.livenessProbe && optProbeNoRef nm c.readinessProbe &&
    optProbeNoRef nm c.startupProbe

/-- Legality of a `hideContainerPortAction` for a deployment: the container
and port can be located, and the hidden name the action will generate is
fresh in every candidate container (no port bears it, no probe references
it). -/
@[reducible] def hcpLegal (h : hideContainerPortAction) (dep : Deployment) : Prop :=
  (∃ c ∈ dep.containers, c.name = h.ContainerName ∧ hasPortNamed h.PortName c = true) ∧
  (∀ c ∈ dep.containers, c.name = h.ContainerName →
    hasPortNamed ("tel2mv-" ++ h.PortName) c = false ∧
    noStrRef ("tel2mv-" ++ h.PortName) c = true)

/-- Legality of an `addTrafficAgentAction` for a deployment: the app
container exists and no agent container is present. -/
@[reducible] def ataLegal (a : addTrafficAgentAction) (dep : Deployment) : Prop :=
  (∃ c ∈ dep.containers, c.name = a.containerName) ∧
  (∀ c ∈ dep.containers, c.name ≠ agentContainerName)

/-- Legality of an optional hide child. -/
@[reducible] def optHcpLegal (dep : Deployment) : Option hideContainerPortAction → Prop
  | some h => hcpLegal h dep
  | none => True

/-- Legality of an optional agent child. -/
@[reducible] def optAtaLegal (dep : Deployment) : Option addTrafficAgentAction → Prop
  | some a => ataLegal a dep
  | none => True

/-- Legality of a whole `deploymentActions` plan: each present child is
legal for the input deployment. -/
@[reducible] def depLegal (d : deploymentActions) (dep : Deployment) : Prop :=
  optHcpLegal dep d.HideContainerPort ∧ optAtaLegal dep d.AddTrafficAgent

-- Round-trip helper lemmas ----------------------------------------------------

theorem replaceFirst_eq_some {q : ServicePort → Bool} {g : ServicePort → ServicePort}
    {l l2 : List ServicePort} (h : replaceFirst q g l = some l2) :
    ∃ l1 p l3, l = l1 ++ p :: l3 ∧ l2 = l1 ++ g p :: l3 ∧ q p = true ∧
      ∀ r ∈ l1, q r = false := by
  induction l generalizing l2 with
  | nil => simp [replaceFirst] at h
  | cons p ps ih =>
    by_cases hq : q p
    · refine ⟨[], p, ps, rfl, ?_, hq, by simp⟩
      simp [replaceFirst, hq] at h
      simp [h.symm]
    · simp [replaceFirst, hq] at h
      obtain ⟨ps2, hps2, rfl⟩ := h
      obtain ⟨l1, r, l3, rfl, rfl, hqr, hl1⟩ := ih hps2
      exact ⟨p :: l1, r, l3, rfl, rfl, hqr, by
        intro x hx
        rcases List.mem_cons.mp hx with rfl | hx
        · simpa using hq
        · exact hl1 x hx⟩

theorem replaceFirst_of_split {q : ServicePort → Bool} {g : ServicePort → ServicePort}
    {l1 l3 : List ServicePort} {p : ServicePort}
    (hl1 : ∀ r ∈ l1, q r = false) (hp : q p = true) :
    replaceFirst q g (l1 ++ p :: l3) = some (l1 ++ g p :: l3) := by
  induction l1 with
  | nil => simp [replaceFirst, hp]
  | cons r rs ih =>
    have hr : q r = false := hl1 r (by simp)
    have ih2 := ih fun x hx => hl1 x (by simp [hx])
    simp only [List.cons_append, replaceFirst, hr, Bool.false_eq_true, if_false,
      show rs.append (p :: l3) = rs ++ p :: l3 from rfl, ih2, Option.map_some']

theorem replaceFirst_isSome {q : ServicePort → Bool} {g : ServicePort → ServicePort}
    {l : List ServicePort} :
    (replaceFirst q g l).isSome = true ↔ ∃ p ∈ l, q p = true := by
  induction l with
  | nil => simp [replaceFirst]
  | cons p ps ih =>
    by_cases hq : q p
    · simp [replaceFirst, hq]
    · simp [replaceFirst, hq, Option.isSome_map, ih]

/-- Generic inversion for the `getPort`-and-assign pattern: if no entry of
the original list satisfies the undo predicate, and the replacement turns a
matching entry into one the undo predicate accepts and the undo replacement
restores, then undo after do returns the original list. -/
theorem replaceFirst_inv {q qU : ServicePort → Bool} {g gU : ServicePort → ServicePort}
    {l l2 : List ServicePort} (h : replaceFirst q g l = some l2)
    (hfresh : ∀ p ∈ l, qU p = false)
    (hswap : ∀ p ∈ l, q p = true → qU (g p) = true ∧ gU (g p) = p) :
    replaceFirst qU gU l2 = some l := by
  obtain ⟨l1, p, l3, rfl, rfl, hqp, hl1⟩ := replaceFirst_eq_some h
  have hmem : p ∈ l1 ++ p :: l3 := by simp
  obtain ⟨hq, hg⟩ := hswap p hmem hqp
  have := @replaceFirst_of_split qU gU l1 l3 (g p)
    (fun r hr => hfresh r (by simp [hr])) hq
  rw [this, hg]

-- Service action round trips --------------------------------------------------

/-- Legality of a `makePortSymbolicAction` for a service: the referenced
numeric port exists, and no port already carries the symbolic name as its
target (the planner chooses the symbolic name fresh). -/
@[reducible] def mpsLegal (m : makePortSymbolicAction) (svc : Service) : Prop :=
  (∃ p ∈ svc.ports, mpsMatch m (IntOrString.fromInt m.TargetPort) p = true) ∧
  (∀ p ∈ svc.ports, mpsMatch m (IntOrString.fromString m.SymbolicName) p = false)

/-- Legality of an `addSymbolicPortAction` for a service: a port with the
numeric value and an unset target exists; no port already carries the
symbolic target; and any port matching the numeric/unset lookup carries the
action's port name and a fully zero target (the planner names the port it
selected). -/
@[reducible] def aspLegal (a : addSymbolicPortAction) (svc : Service) : Prop :=
  (∃ p ∈ svc.ports, aspMatch (a.toMakePortSymbolic.TargetPort : Int) p = true) ∧
  (∀ p ∈ svc.ports,
    mpsMatch a.toMakePortSymbolic
      (IntOrString.fromString a.toMakePortSymbolic.SymbolicName) p = false) ∧
  (∀ p ∈ svc.ports, aspMatch (a.toMakePortSymbolic.TargetPort : Int) p = true →
    p.name = a.toMakePortSymbolic.PortName ∧ p.targetPort = ⟨.int, 0, ""⟩)

theorem mps_do_ok {m : makePortSymbolicAction} {svc : Service}
    (h : ∃ p ∈ svc.ports, mpsMatch m (IntOrString.fromInt m.TargetPort) p = true) :
    ∃ svc2, m.Do svc = .ok svc2 := by
  have hs := (replaceFirst_isSome
    (g := fun p => { p with targetPort := IntOrString.fromString m.SymbolicName })).mpr h
  unfold makePortSymbolicAction.Do
  cases hrf : replaceFirst (mpsMatch m (IntOrString.fromInt m.TargetPort))
      (fun p => { p with targetPort := IntOrString.fromString m.SymbolicName }) svc.ports with
  | none => rw [hrf] at hs; simp at hs
  | some ps => exact ⟨{ svc with ports := ps }, by simp [hrf]⟩

theorem mps_do_undo {m : makePortSymbolicAction} {svc svc2 : Service}
    (hfresh : ∀ p ∈ svc.ports, mpsMatch m (IntOrString.fromString m.SymbolicName) p = false)
    (h : m.Do svc = .ok svc2) :
    m.Undo svc2 = .ok svc := by
  unfold makePortSymbolicAction.Do at h
  split at h
  case h_2 => exact absurd h (by simp)
  case h_1 ps hrf =>
    have hinv : replaceFirst (mpsMatch m (IntOrString.fromString m.SymbolicName))
        (fun p => { p with targetPort := IntOrString.fromInt m.TargetPort }) ps
        = some svc.ports := by
      refine replaceFirst_inv hrf hfresh ?_
      intro p hp hq
      simp only [mpsMatch, Bool.and_eq_true, beq_iff_eq] at hq
      obtain ⟨htp, hn⟩ := hq
      refine ⟨by simp [mpsMatch, hn], ?_⟩
      show ({ p with targetPort := IntOrString.fromInt m.TargetPort } : ServicePort) = p
      rw [← htp]
    have hsvc2 : svc2 = { svc with ports := ps } := by
      simp only [Except.ok.injEq] at h; exact h.symm
    subst hsvc2
    unfold makePortSymbolicAction.Undo
    simp [hinv]

theorem asp_do_ok {a : addSymbolicPortAction} {svc : Service}
    (h : ∃ p ∈ svc.ports, aspMatch (a.toMakePortSymbolic.TargetPort : Int) p = true) :
    ∃ svc2, a.Do svc = .ok svc2 := by
  have hs := (replaceFirst_isSome
    (g := fun p =>
      { p with targetPort := IntOrString.fromString a.toMakePortSymbolic.SymbolicName })).mpr h
  unfold addSymbolicPortAction.Do
  cases hrf : replaceFirst (aspMatch (a.toMakePortSymbolic.TargetPort : Int))
      (fun p =>
        { p with targetPort := IntOrString.fromString a.toMakePortSymbolic.SymbolicName })
      svc.ports with
  | none => rw [hrf] at hs; simp at hs
  | some ps => exact ⟨{ svc with ports := ps }, by simp [hrf]⟩

theorem asp_do_undo {a : addSymbolicPortAction} {svc svc2 : Service}
    (hfresh : ∀ p ∈ svc.ports,
      mpsMatch a.toMakePortSymbolic
        (IntOrString.fromString a.toMakePortSymbolic.SymbolicName) p = false)
    (hnm : ∀ p ∈ svc.ports, aspMatch (a.toMakePortSymbolic.TargetPort : Int) p = true →
      p.name = a.toMakePortSymbolic.PortName ∧ p.targetPort = ⟨.int, 0, ""⟩)
    (h : a.Do svc = .ok svc2) :
    a.Undo svc2 = .ok svc := by
  unfold addSymbolicPortAction.Do at h
  split at h
  case h_2 => exact absurd h (by simp)
  case h_1 ps hrf =>
    have hinv : replaceFirst
        (mpsMatch a.toMakePortSymbolic
          (IntOrString.fromString a.toMakePortSymbolic.SymbolicName))
        (fun p => { p with targetPort := ⟨.int, 0, ""⟩ }) ps
        = some svc.ports := by
      refine replaceFirst_inv hrf hfresh ?_
      intro p hp hq
      obtain ⟨hn, htp⟩ := hnm p hp hq
      refine ⟨by simp [mpsMatch, hn], ?_⟩
      show ({ p with targetPort := ⟨.int, 0, ""⟩ } : ServicePort) = p
      rw [← htp]
    have hsvc2 : svc2 = { svc with ports := ps } := by
      simp only [Except.ok.injEq] at h; exact h.symm
    subst hsvc2
    unfold addSymbolicPortAction.Undo
    simp [hinv]

-- Agent container lemmas ------------------------------------------------------

theorem removeFirstAgent_id {l : List Container}
    (h : ∀ c ∈ l, c.name ≠ agentContainerName) : removeFirstAgent l = l := by
  induction l with
  | nil => rfl
  | cons c cs ih =>
    have hc : (c.name == agentContainerName) = false := by
      simpa using h c (by simp)
    simp only [removeFirstAgent, hc, Bool.false_eq_true, if_false]
    rw [ih fun x hx => h x (by simp [hx])]

theorem removeFirstAgent_append {l : List Container} {ag : Container}
    (h : ∀ c ∈ l, c.name ≠ agentContainerName) (hag : ag.name = agentContainerName) :
    removeFirstAgent (l ++ [ag]) = l := by
  induction l with
  | nil => simp [removeFirstAgent, hag]
  | cons c cs ih =>
    have hc : (c.name == agentContainerName) = false := by
      simpa using h c (by simp)
    simp only [List.cons_append, removeFirstAgent, hc, Bool.false_eq_true, if_false,
      show cs.append [ag] = cs ++ [ag] from rfl]
    rw [ih fun x hx => h x (by simp [hx])]

theorem removeFirstAgent_sublist (l : List Container) :
    List.Sublist (removeFirstAgent l) l := by
  induction l with
  | nil => simp [removeFirstAgent]
  | cons c cs ih =>
    by_cases hc : c.name == agentContainerName
    · simp only [removeFirstAgent, hc, if_true]
      exact List.sublist_cons_of_sublist c (List.Sublist.refl cs)
    · simp only [removeFirstAgent, hc, Bool.false_eq_true, if_false]
      exact List.Sublist.cons₂ c ih

theorem removeFirstAgent_filter (l : List Container) :
    (removeFirstAgent l).filter (fun c => !(c.name == agentContainerName))
      = l.filter (fun c => !(c.name == agentContainerName)) := by
  induction l with
  | nil => rfl
  | cons c cs ih =>
    by_cases hc : c.name == agentContainerName
    · simp [removeFirstAgent, hc, List.filter_cons]
    · simp [removeFirstAgent, hc, List.filter_cons, ih]

theorem ata_do_ok {a : addTrafficAgentAction} {dep : Deployment}
    (h : ∃ c ∈ dep.containers, c.name = a.containerName) :
    ∃ appC, a.appContainer dep = some appC ∧
      a.Do dep = .ok { dep with containers :=
        dep.containers ++ [a.agentContainer dep.name appC] } := by
  have hs : (dep.containers.find? (·.name == a.containerName)).isSome := by
    rw [List.find?_isSome]
    obtain ⟨c, hc, hn⟩ := h
    exact ⟨c, hc, by simp [hn]⟩
  cases hf : dep.containers.find? (·.name == a.containerName) with
  | none => rw [hf] at hs; simp at hs
  | some appC =>
    refine ⟨appC, hf, ?_⟩
    unfold addTrafficAgentAction.Do addTrafficAgentAction.appContainer
    simp [hf]

theorem ata_do_undo {a : addTrafficAgentAction} {dep dep2 : Deployment}
    (hno : ∀ c ∈ dep.containers, c.name ≠ agentContainerName)
    (h : a.Do dep = .ok dep2) :
    a.Undo dep2 = .ok dep := by
  unfold addTrafficAgentAction.Do at h
  split at h
  case h_1 => exact absurd h (by simp)
  case h_2 appC hf =>
    have hdep2 : dep2 = { dep with containers :=
        dep.containers ++ [a.agentContainer dep.name appC] } := by
      simp only [Except.ok.injEq] at h; exact h.symm
    subst hdep2
    unfold addTrafficAgentAction.Undo
    rw [show ({ dep with containers :=
        dep.containers ++ [a.agentContainer dep.name appC] } : Deployment).containers
      = dep.containers ++ [a.agentContainer dep.name appC] from rfl]
    rw [removeFirstAgent_append hno rfl]

-- Hide-port lemmas ------------------------------------------------------------

theorem hcpMutate_eq_some {cn frm : String} {f : Container → Container}
    {l l2 : List Container} (h : hcpMutate cn frm f l = some l2) :
    ∃ l1 c l3, l = l1 ++ c :: l3 ∧ l2 = l1 ++ f c :: l3 ∧
      (c.name == cn && hasPortNamed frm c) = true ∧
      ∀ x ∈ l1, (x.name == cn && hasPortNamed frm x) = false := by
  induction l generalizing l2 with
  | nil => simp [hcpMutate] at h
  | cons c cs ih =>
    by_cases hq : (c.name == cn && hasPortNamed frm c) = true
    · refine ⟨[], c, cs, rfl, ?_, hq, by simp⟩
      simp [hcpMutate, hq] at h
      simp [h.symm]
    · simp only [hcpMutate, hq, Bool.false_eq_true, if_false] at h
      rw [Bool.not_eq_true] at hq
      simp only [hq, Bool.false_eq_true, if_false, Option.map_eq_some'] at h
      obtain ⟨cs2, hcs2, rfl⟩ := h
      obtain ⟨l1, r, l3, rfl, rfl, hqr, hl1⟩ := ih hcs2
      exact ⟨c :: l1, r, l3, rfl, rfl, hqr, by
        intro x hx
        rcases List.mem_cons.mp hx with rfl | hx
        · exact hq
        · exact hl1 x hx⟩

theorem hcpMutate_of_split {cn frm : String} {f : Container → Container}
    {l1 l3 : List Container} {c : Container}
    (hl1 : ∀ x ∈ l1, (x.name == cn && hasPortNamed frm x) = false)
    (hc : (c.name == cn && hasPortNamed frm c) = true) :
    hcpMutate cn frm f (l1 ++ c :: l3) = some (l1 ++ f c :: l3) := by
  induction l1 with
  | nil => simp [hcpMutate, hc]
  | cons r rs ih =>
    have hr := hl1 r (by simp)
    have ih2 := ih fun x hx => hl1 x (by simp [hx])
    simp only [List.cons_append, hcpMutate, hr, Bool.false_eq_true, if_false,
      show rs.append (c :: l3) = rs ++ c :: l3 from rfl, ih2, Option.map_some']

theorem renameFirstPort_inv {frm to_ : String} {l : List ContainerPort}
    (h : ∀ p ∈ l, p.name ≠ to_) :
    renameFirstPort to_ frm (renameFirstPort frm to_ l) = l := by
  induction l with
  | nil => rfl
  | cons p ps ih =>
    by_cases hp : p.name == frm
    · have : p.name = frm := by simpa using hp
      simp [renameFirstPort, hp, ← this]
    · have hto : (p.name == to_) = false := by simpa using h p (by simp)
      simp only [renameFirstPort, hp, Bool.false_eq_true, if_false, hto]
      rw [ih fun x hx => h x (by simp [hx])]

theorem probeSwap_inv {frm to_ : String} {pr : Probe}
    (h : probeNoStrRef to_ pr = true) :
    probeSwap to_ frm (probeSwap frm to_ pr) = pr := by
  obtain ⟨ex, hg, tcp⟩ := pr
  simp only [probeNoStrRef, Bool.and_eq_true] at h
  obtain ⟨h1, h2⟩ := h
  simp only [probeSwap, Probe.mk.injEq, true_and]
  constructor
  · cases hg with
    | none => rfl
    | some hga =>
      by_cases hs : hga.port.strVal == frm
      · have hfrm : hga.port.strVal = frm := by simpa using hs
        simp [Option.map_some', hs, ← hfrm]
      · have hs2 : hga.port.strVal ≠ frm := by simpa using hs
        have hto : hga.port.strVal ≠ to_ := by simpa using h1
        simp [Option.map_some', hs2, hto]
  · cases tcp with
    | none => rfl
    | some ta =>
      by_cases hs : ta.port.strVal == frm
      · have hfrm : ta.port.strVal = frm := by simpa using hs
        simp [Option.map_some', hs, ← hfrm]
      · have hs2 : ta.port.strVal ≠ frm := by simpa using hs
        have hto : ta.port.strVal ≠ to_ := by simpa using h2
        simp [Option.map_some', hs2, hto]

theorem hcpMutate_isSome {cn frm : String} {f : Container → Container}
    {l : List Container} :
    (hcpMutate cn frm f l).isSome = true ↔
      ∃ c ∈ l, (c.name == cn && hasPortNamed frm c) = true := by
  induction l with
  | nil => simp [hcpMutate]
  | cons c cs ih =>
    by_cases hq : (c.name == cn && hasPortNamed frm c) = true
    · rw [Bool.and_eq_true, beq_iff_eq] at hq
      simp [hcpMutate, hq.1, hq.2]
    · have hqf : (c.name == cn && hasPortNamed frm c) = false := by
        rw [Bool.not_eq_true] at hq; exact hq
      have hmem : (∃ x ∈ c :: cs, (x.name == cn && hasPortNamed frm x) = true) ↔
          ∃ x ∈ cs, (x.name == cn && hasPortNamed frm x) = true := by
        constructor
        · rintro ⟨x, hx, hpx⟩
          rcases List.mem_cons.mp hx with rfl | hx2
          · rw [hqf] at hpx; cases hpx
          · exact ⟨x, hx2, hpx⟩
        · rintro ⟨x, hx, hpx⟩
          exact ⟨x, by simp [hx], hpx⟩
      rw [hmem, ← ih]
      cases hrec : hcpMutate cn frm f cs <;> simp [hcpMutate, hqf, hrec]

theorem optProbeSwap_inv {frm to_ : String} :
    ∀ {o : Option Probe}, optProbeNoRef to_ o = true →
      Option.map (probeSwap to_ frm) (Option.map (probeSwap frm to_) o) = o
  | none, _ => rfl
  | some pr, h => by
    simp only [Option.map_some', Option.some.injEq]
    exact probeSwap_inv (by simpa [optProbeNoRef] using h)

theorem swapPortName_inv {frm to_ : String} {c : Container}
    (hports : ∀ p ∈ c.ports, p.name ≠ to_)
    (href : noStrRef to_ c = true) :
    swapPortName (swapPortName c frm to_) to_ frm = c := by
  unfold noStrRef at href
  rw [Bool.and_eq_true, Bool.and_eq_true] at href
  obtain ⟨⟨h1, h2⟩, h3⟩ := href
  obtain ⟨nm, im, args, ports, env, ef, vm, lp, rp, sp⟩ := c
  simp only [swapPortName, Container.mk.injEq, true_and]
  exact ⟨renameFirstPort_inv hports, optProbeSwap_inv h1, optProbeSwap_inv h2,
    optProbeSwap_inv h3⟩

theorem hasPortNamed_rename {frm to_ : String} {l : List ContainerPort}
    (h : l.any (·.name == frm) = true) :
    (renameFirstPort frm to_ l).any (·.name == to_) = true := by
  induction l with
  | nil => simp at h
  | cons p ps ih =>
    by_cases hp : p.name == frm
    · simp [renameFirstPort, hp]
    · simp only [List.any_cons, hp, Bool.false_or] at h
      simp [renameFirstPort, hp, List.any_cons, ih h]

theorem hcpMutate_names {cn frm : String} {f : Container → Container}
    {l l2 : List Container} (h : hcpMutate cn frm f l = some l2)
    (hf : ∀ c, (f c).name = c.name) :
    l2.map (·.name) = l.map (·.name) := by
  obtain ⟨l1, c, l3, rfl, rfl, _, _⟩ := hcpMutate_eq_some h
  simp [hf]

theorem hcp_do_ok {h : hideContainerPortAction} {dep : Deployment}
    (hex : ∃ c ∈ dep.containers, c.name = h.ContainerName ∧ hasPortNamed h.PortName c = true) :
    ∃ dep2, h.Do dep = .ok ({ h with HiddenName := "tel2mv-" ++ h.PortName }, dep2) := by
  have hs : (hcpMutate h.ContainerName h.PortName
      (swapPortName · h.PortName ("tel2mv-" ++ h.PortName)) dep.containers).isSome = true := by
    rw [hcpMutate_isSome]
    obtain ⟨c, hc, hn, hp⟩ := hex
    exact ⟨c, hc, by simp [hn, hp]⟩
  unfold hideContainerPortAction.Do
  cases hrf : hcpMutate h.ContainerName h.PortName
      (swapPortName · h.PortName ("tel2mv-" ++ h.PortName)) dep.containers with
  | none => rw [hrf] at hs; simp at hs
  | some cs => exact ⟨{ dep with containers := cs }, by simp [hrf]⟩

theorem hcp_do_undo {h h2 : hideContainerPortAction} {dep dep2 : Deployment}
    (hleg : ∀ c ∈ dep.containers, c.name = h.ContainerName →
      hasPortNamed ("tel2mv-" ++ h.PortName) c = false ∧
      noStrRef ("tel2mv-" ++ h.PortName) c = true)
    (hdo : h.Do dep = .ok (h2, dep2)) :
    h2.Undo dep2 = .ok (h2, dep) := by
  unfold hideContainerPortAction.Do at hdo
  split at hdo
  case h_2 => exact absurd hdo (by simp)
  case h_1 cs hrf =>
    simp only [Except.ok.injEq, Prod.mk.injEq] at hdo
    obtain ⟨hh2, hdep2⟩ := hdo
    obtain ⟨l1, c, l3, hsplit, rfl, hq, hl1⟩ := hcpMutate_eq_some hrf
    rw [Bool.and_eq_true, beq_iff_eq] at hq
    obtain ⟨hcn, hcp⟩ := hq
    have hcmem : c ∈ dep.containers := by rw [hsplit]; simp
    have hcfresh := hleg c hcmem hcn
    have hports : ∀ p ∈ c.ports, p.name ≠ "tel2mv-" ++ h.PortName := by
      intro p hp
      have := (List.any_eq_false.mp hcfresh.1) p hp
      simpa using this
    have hback : swapPortName (swapPortName c h.PortName ("tel2mv-" ++ h.PortName))
        ("tel2mv-" ++ h.PortName) h.PortName = c :=
      swapPortName_inv hports hcfresh.2
    have hl1b : ∀ x ∈ l1,
        (x.name == h.ContainerName &&
          hasPortNamed ("tel2mv-" ++ h.PortName) x) = false := by
      intro x hx
      have hxmem : x ∈ dep.containers := by rw [hsplit]; simp [hx]
      by_cases hxn : x.name = h.ContainerName
      · simp [hxn, (hleg x hxmem hxn).1]
      · simp [hxn]
    have hcb : ((swapPortName c h.PortName ("tel2mv-" ++ h.PortName)).name
          == h.ContainerName &&
        hasPortNamed ("tel2mv-" ++ h.PortName)
          (swapPortName c h.PortName ("tel2mv-" ++ h.PortName))) = true := by
      have hn : (swapPortName c h.PortName ("tel2mv-" ++ h.PortName)).name = c.name := rfl
      have hhas : hasPortNamed ("tel2mv-" ++ h.PortName)
          (swapPortName c h.PortName ("tel2mv-" ++ h.PortName)) = true := by
        unfold hasPortNamed swapPortName
        exact hasPortNamed_rename hcp
      simp [hn, hcn, hhas]
    have hres := @hcpMutate_of_split h.ContainerName ("tel2mv-" ++ h.PortName)
      (fun x => swapPortName x ("tel2mv-" ++ h.PortName) h.PortName) l1 l3
      (swapPortName c h.PortName ("tel2mv-" ++ h.PortName)) hl1b hcb
    rw [← hh2, ← hdep2]
    simp only [hideContainerPortAction.Undo]
    rw [hres]
    simp only [hback]
    rw [← hsplit]

theorem hcp_do_names {h h2 : hideContainerPortAction} {dep dep2 : Deployment}
    (hdo : h.Do dep = .ok (h2, dep2)) :
    dep2.containers.map (·.name) = dep.containers.map (·.name) ∧ dep2.name = dep.name := by
  unfold hideContainerPortAction.Do at hdo
  split at hdo
  case h_2 => exact absurd hdo (by simp)
  case h_1 cs hrf =>
    simp only [Except.ok.injEq, Prod.mk.injEq] at hdo
    obtain ⟨_, hdep2⟩ := hdo
    subst hdep2
    exact ⟨hcpMutate_names hrf fun c => rfl, rfl⟩

theorem exists_name_of_map_eq {nm : String} {l l2 : List Container}
    (hmap : l2.map (·.name) = l.map (·.name))
    (h : ∃ c ∈ l, c.name = nm) : ∃ c ∈ l2, c.name = nm := by
  obtain ⟨c, hc, rfl⟩ := h
  have hm : c.name ∈ l2.map (·.name) := by
    rw [hmap]; exact List.mem_map.mpr ⟨c, hc, rfl⟩
  obtain ⟨c2, hc2, he⟩ := List.mem_map.mp hm
  exact ⟨c2, hc2, he⟩

theorem forall_name_of_map_eq {nm : String} {l l2 : List Container}
    (hmap : l2.map (·.name) = l.map (·.name))
    (h : ∀ c ∈ l, c.name ≠ nm) : ∀ c ∈ l2, c.name ≠ nm := by
  intro c2 hc2 he
  have hm : c2.name ∈ l.map (·.name) := by
    rw [← hmap]; exact List.mem_map.mpr ⟨c2, hc2, rfl⟩
  obtain ⟨c, hc, hce⟩ := List.mem_map.mp hm
  exact h c hc (by rw [hce, he])

/-- Round trip of a whole deployment plan: a legal plan's `Do` succeeds and
undoing the updated child actions (in reverse order) restores the input. -/
theorem dep_round_trip {d : deploymentActions} {dep : Deployment} (hleg : depLegal d dep) :
    ∃ acts dep2, d.Do dep = (acts, dep2, none) ∧ undoActionsDep acts dep2 = (dep, none) := by
  obtain ⟨hlegH, hlegA⟩ := hleg
  cases hH : d.HideContainerPort with
  | none =>
    cases hA : d.AddTrafficAgent with
    | none =>
      refine ⟨[], dep, ?_, ?_⟩
      · simp [deploymentActions.Do, deploymentActions.Actions, hH, hA, doActionsDep]
      · simp [undoActionsDep, undoListDep]
    | some a =>
      rw [hA] at hlegA
      obtain ⟨happ, hno⟩ := hlegA
      obtain ⟨appC, hfind, hdo⟩ := ata_do_ok happ
      have hundo := ata_do_undo hno hdo
      refine ⟨[.addAgent a],
        { dep with containers := dep.containers ++ [a.agentContainer dep.name appC] }, ?_, ?_⟩
      · simp [deploymentActions.Do, deploymentActions.Actions, hH, hA, doActionsDep,
          depAction.Do, hdo, Except.map]
      · simp [undoActionsDep, undoListDep, depAction.Undo, hundo, Except.map]
  | some h =>
    rw [hH] at hlegH
    obtain ⟨hexH, hfreshH⟩ := hlegH
    obtain ⟨dep1, hdoH⟩ := hcp_do_ok hexH
    have hundoH := hcp_do_undo hfreshH hdoH
    obtain ⟨hnames, hname⟩ := hcp_do_names hdoH
    cases hA : d.AddTrafficAgent with
    | none =>
      refine ⟨[.hide { h with HiddenName := "tel2mv-" ++ h.PortName }], dep1, ?_, ?_⟩
      · simp [deploymentActions.Do, deploymentActions.Actions, hH, hA, doActionsDep,
          depAction.Do, hdoH, Except.map]
      · simp [undoActionsDep, undoListDep, depAction.Undo, hundoH, Except.map]
    | some a =>
      rw [hA] at hlegA
      obtain ⟨happ, hno⟩ := hlegA
      have happ1 : ∃ c ∈ dep1.containers, c.name = a.containerName :=
        exists_name_of_map_eq hnames happ
      have hno1 : ∀ c ∈ dep1.containers, c.name ≠ agentContainerName :=
        forall_name_of_map_eq hnames hno
      obtain ⟨appC, hfind, hdoA⟩ := ata_do_ok happ1
      have hundoA := ata_do_undo hno1 hdoA
      refine ⟨[.hide { h with HiddenName := "tel2mv-" ++ h.PortName }, .addAgent a],
        { dep1 with containers := dep1.containers ++ [a.agentContainer dep1.name appC] },
        ?_, ?_⟩
      · simp [deploymentActions.Do, deploymentActions.Actions, hH, hA, doActionsDep,
          depAction.Do, hdoH, hdoA, Except.map]
      · simp [undoActionsDep, undoListDep, depAction.Undo, hundoA, hundoH, Except.map]

/-- Round trip of a service plan holding only `MakePortSymbolic`. -/
theorem svc_round_trip_mps {v : String} {m : makePortSymbolicAction} {svc : Service}
    (hleg : mpsLegal m svc) :
    ∃ svc2, svcActions.Do ⟨v, some m, none⟩ svc = (svc2, none) ∧
      svcActions.Undo ⟨v, some m, none⟩ svc2 = (svc, none) := by
  obtain ⟨svc2, hdo⟩ := mps_do_ok hleg.1
  have hundo := mps_do_undo hleg.2 hdo
  refine ⟨svc2, ?_, ?_⟩
  · simp [svcActions.Do, svcActions.Actions, doActionsSvc, svcAction.Do, hdo]
  · simp [svcActions.Undo, svcActions.Actions, undoActionsSvc, undoListSvc,
      svcAction.Undo, hundo]

/-- Round trip of a service plan holding only `AddSymbolicPort`. -/
theorem svc_round_trip_asp {v : String} {a : addSymbolicPortAction} {svc : Service}
    (hleg : aspLegal a svc) :
    ∃ svc2, svcActions.Do ⟨v, none, some a⟩ svc = (svc2, none) ∧
      svcActions.Undo ⟨v, none, some a⟩ svc2 = (svc, none) := by
  obtain ⟨svc2, hdo⟩ := asp_do_ok hleg.1
  have hundo := asp_do_undo hleg.2.1 hleg.2.2 hdo
  refine ⟨svc2, ?_, ?_⟩
  · simp [svcActions.Do, svcActions.Actions, doActionsSvc, svcAction.Do, hdo]
  · simp [svcActions.Undo, svcActions.Actions, undoActionsSvc, undoListSvc,
      svcAction.Undo, hundo]

-- Claim theorems --------------------------------------------------------------

/-- C1: Round-trip: for every legal workload/service object and plan whose
actions' preconditions hold (the referenced service port and app container
exist, the generated symbolic/hidden names are fresh, and no agent container
is present), applying the plan's Do and then its Undo restores the original
object exactly (the embedding carries no resourceVersion / generation /
creationTimestamp, so equality is on the nose); this holds for `svcActions`
(makePortSymbolic / addSymbolicPort) and `deploymentActions`
(hideContainerPort / addTrafficAgent) alike. -/
theorem c1_do_undo_round_trip
    (v : String) (m : makePortSymbolicAction) (svcM : Service)
    (a : addSymbolicPortAction) (svcA : Service)
    (d : deploymentActions) (dep : Deployment)
    (hm : mpsLegal m svcM) (ha : aspLegal a svcA) (hd : depLegal d dep) :
    (∃ svc2, svcActions.Do ⟨v, some m, none⟩ svcM = (svc2, none) ∧
      svcActions.Undo ⟨v, some m, none⟩ svc2 = (svcM, none)) ∧
    (∃ svc2, svcActions.Do ⟨v, none, some a⟩ svcA = (svc2, none) ∧
      svcActions.Undo ⟨v, none, some a⟩ svc2 = (svcA, none)) ∧
    (∃ acts dep2, d.Do dep = (acts, dep2, none) ∧
      undoActionsDep acts dep2 = (dep, none)) :=
  ⟨svc_round_trip_mps hm, svc_round_trip_asp ha, dep_round_trip hd⟩

/-- Witness for C1 at the spec's `hello` fixture. -/
theorem c1_do_undo_round_trip_witness :
    mpsLegal ⟨"http", 8080, "tel2px"⟩ ⟨"hello", [⟨"http", 80, IntOrString.fromInt 8080⟩]⟩ ∧
    aspLegal ⟨⟨"http", 80, "tel2px"⟩⟩ ⟨"hello", [⟨"http", 80, ⟨.int, 0, ""⟩⟩]⟩ ∧
    depLegal ⟨"v1", "hello", "http", some ⟨"hello", "tel2px", ""⟩,
      some ⟨"tel2px", "TCP", 8080, "img:1", "hello"⟩⟩
      ⟨"hello", [⟨"hello", "img:0", [], [⟨"tel2px", "TCP", 8080⟩], [], [], [],
        none, none, none⟩]⟩ ∧
    ((∃ svc2, svcActions.Do ⟨"v1", some ⟨"http", 8080, "tel2px"⟩, none⟩
        ⟨"hello", [⟨"http", 80, IntOrString.fromInt 8080⟩]⟩ = (svc2, none) ∧
      svcActions.Undo ⟨"v1", some ⟨"http", 8080, "tel2px"⟩, none⟩ svc2 =
        (⟨"hello", [⟨"http", 80, IntOrString.fromInt 8080⟩]⟩, none)) ∧
    (∃ svc2, svcActions.Do ⟨"v1", none, some ⟨⟨"http", 80, "tel2px"⟩⟩⟩
        ⟨"hello", [⟨"http", 80, ⟨.int, 0, ""⟩⟩]⟩ = (svc2, none) ∧
      svcActions.Undo ⟨"v1", none, some ⟨⟨"http", 80, "tel2px"⟩⟩⟩ svc2 =
        (⟨"hello", [⟨"http", 80, ⟨.int, 0, ""⟩⟩]⟩, none)) ∧
    (∃ acts dep2, deploymentActions.Do ⟨"v1", "hello", "http",
        some ⟨"hello", "tel2px", ""⟩, some ⟨"tel2px", "TCP", 8080, "img:1", "hello"⟩⟩
        ⟨"hello", [⟨"hello", "img:0", [], [⟨"tel2px", "TCP", 8080⟩], [], [], [],
          none, none, none⟩]⟩ = (acts, dep2, none) ∧
      undoActionsDep acts dep2 =
        (⟨"hello", [⟨"hello", "img:0", [], [⟨"tel2px", "TCP", 8080⟩], [], [], [],
          none, none, none⟩]⟩, none))) :=
  ⟨by decide, by decide, by decide,
    c1_do_undo_round_trip "v1" ⟨"http", 8080, "tel2px"⟩
      ⟨"hello", [⟨"http", 80, IntOrString.fromInt 8080⟩]⟩
      ⟨⟨"http", 80, "tel2px"⟩⟩ ⟨"hello", [⟨"http", 80, ⟨.int, 0, ""⟩⟩]⟩
      ⟨"v1", "hello", "http", some ⟨"hello", "tel2px", ""⟩,
        some ⟨"tel2px", "TCP", 8080, "img:1", "hello"⟩⟩
      ⟨"hello", [⟨"hello", "img:0", [], [⟨"tel2px", "TCP", 8080⟩], [], [], [],
        none, none, none⟩]⟩
      (by decide) (by decide) (by decide)⟩

theorem replaceFirst_eq_none {q : ServicePort → Bool} {g : ServicePort → ServicePort}
    {l : List ServicePort} (h : ∀ p ∈ l, q p = false) : replaceFirst q g l = none := by
  cases hrf : replaceFirst q g l with
  | none => rfl
  | some l2 =>
    obtain ⟨p, hp, hq⟩ := replaceFirst_isSome.mp (by rw [hrf]; rfl)
    rw [h p hp] at hq
    cases hq

theorem hcpMutate_eq_none {cn frm : String} {f : Container → Container}
    {l : List Container} (h : ∀ c ∈ l, (c.name == cn && hasPortNamed frm c) = false) :
    hcpMutate cn frm f l = none := by
  cases hrf : hcpMutate cn frm f l with
  | none => rfl
  | some l2 =>
    obtain ⟨c, hc, hq⟩ := hcpMutate_isSome.mp (by rw [hrf]; rfl)
    rw [h c hc] at hq
    cases hq

theorem find?_append_some {p : Container → Bool} {l l2 : List Container} {c : Container}
    (h : l.find? p = some c) : (l ++ l2).find? p = some c := by
  induction l with
  | nil => simp [List.find?] at h
  | cons x xs ih =>
    by_cases hx : p x
    · simp only [List.find?, hx] at h ⊢
      exact h
    · rw [Bool.not_eq_true] at hx
      simp only [List.cons_append, List.find?, hx] at h ⊢
      exact ih h

/-- C2 (amended): `Do` carries no per-action is-done short-circuit.  When
the app container is still present, applying a plan that contains
`addTrafficAgentAction` a second time succeeds but appends a second agent
container, so the result of the second `Do` differs from the result of the
first; and for a `makePortSymbolicAction` whose unique matching port was
rewritten by the first `Do`, the second `Do` errors. -/
theorem c2_second_do_appends_agent
    (v rs rsp : String) (a : addTrafficAgentAction) (dep : Deployment)
    (m : makePortSymbolicAction) (svcS : Service)
    (j1 j3 : List ServicePort) (pp : ServicePort)
    (happ : ∃ c ∈ dep.containers, c.name = a.containerName)
    (hsplit : svcS.ports = j1 ++ pp :: j3)
    (hj1 : ∀ q ∈ j1, mpsMatch m (IntOrString.fromInt m.TargetPort) q = false)
    (hpp : mpsMatch m (IntOrString.fromInt m.TargetPort) pp = true)
    (hj3 : ∀ q ∈ j3, mpsMatch m (IntOrString.fromInt m.TargetPort) q = false) :
    (∃ acts dep1 acts2 dep2,
      deploymentActions.Do ⟨v, rs, rsp, none, some a⟩ dep = (acts, dep1, none) ∧
      deploymentActions.Do ⟨v, rs, rsp, none, some a⟩ dep1 = (acts2, dep2, none) ∧
      (∃ ag, ag.name = agentContainerName ∧
        dep1.containers = dep.containers ++ [ag] ∧
        dep2.containers = dep1.containers ++ [ag]) ∧
      dep2 ≠ dep1) ∧
    (∃ svc2 e, m.Do svcS = .ok svc2 ∧ m.Do svc2 = .error e) := by
  constructor
  · obtain ⟨appC, hfind, hdo⟩ := ata_do_ok happ
    have hfind1 : (dep.containers ++ [a.agentContainer dep.name appC]).find?
        (·.name == a.containerName) = some appC := find?_append_some hfind
    refine ⟨[.addAgent a], { dep with containers :=
        dep.containers ++ [a.agentContainer dep.name appC] },
      [.addAgent a], { dep with containers :=
        (dep.containers ++ [a.agentContainer dep.name appC])
          ++ [a.agentContainer dep.name appC] },
      ?_, ?_, ?_, ?_⟩
    · simp [deploymentActions.Do, deploymentActions.Actions, doActionsDep,
        depAction.Do, hdo, Except.map]
    · simp only [deploymentActions.Do, deploymentActions.Actions, doActionsDep,
        depAction.Do, Except.map, addTrafficAgentAction.Do,
        addTrafficAgentAction.appContainer]
      rw [hfind1]
    · exact ⟨a.agentContainer dep.name appC, rfl, rfl, rfl⟩
    · intro he
      have := congrArg (fun x => x.containers.length) he
      simp at this
  · have hdo1 : m.Do svcS = .ok { svcS with ports := j1 ++
        { pp with targetPort := IntOrString.fromString m.SymbolicName } :: j3 } := by
      unfold makePortSymbolicAction.Do
      rw [hsplit, replaceFirst_of_split hj1 hpp]
    refine ⟨_, "unable to find target port " ++ m.PortName ++ " in Service " ++ svcS.name,
      hdo1, ?_⟩
    have hne : IntOrString.fromString m.SymbolicName ≠ IntOrString.fromInt m.TargetPort := by
      intro he
      simp [IntOrString.fromString, IntOrString.fromInt] at he
    have hnone : replaceFirst (mpsMatch m (IntOrString.fromInt m.TargetPort))
        (fun q => { q with targetPort := IntOrString.fromString m.SymbolicName })
        (j1 ++ { pp with targetPort := IntOrString.fromString m.SymbolicName } :: j3)
        = none := by
      apply replaceFirst_eq_none
      intro q hq
      rcases List.mem_append.mp hq with hq1 | hq2
      · exact hj1 q hq1
      · rcases List.mem_cons.mp hq2 with rfl | hq3
        · simp [mpsMatch, hne]
        · exact hj3 q hq3
    unfold makePortSymbolicAction.Do
    rw [hnone]

/-- Counterexample to C2 as stated: on the `hello` deployment, the plan's
`Do` succeeds, and applying `Do` a second time also succeeds but does not
leave the object identical to the result of the first `Do` — a second agent
container is appended, because neither `doActions` nor
`addTrafficAgentAction.Do` consults `IsDone`. -/
theorem c2_counterexample :
    (deploymentActions.Do
      ⟨"v1", "hello", "", none, some ⟨"tel2px", "TCP", 8080, "img:1", "hello"⟩⟩
      ⟨"hello", [⟨"hello", "img:0", [], [⟨"tel2px", "TCP", 8080⟩], [], [], [],
        none, none, none⟩]⟩).2.2 = none ∧
    (deploymentActions.Do
      ⟨"v1", "hello", "", none, some ⟨"tel2px", "TCP", 8080, "img:1", "hello"⟩⟩
      (deploymentActions.Do
        ⟨"v1", "hello", "", none, some ⟨"tel2px", "TCP", 8080, "img:1", "hello"⟩⟩
        ⟨"hello", [⟨"hello", "img:0", [], [⟨"tel2px", "TCP", 8080⟩], [], [], [],
          none, none, none⟩]⟩).2.1).2.2 = none ∧
    (deploymentActions.Do
      ⟨"v1", "hello", "", none, some ⟨"tel2px", "TCP", 8080, "img:1", "hello"⟩⟩
      (deploymentActions.Do
        ⟨"v1", "hello", "", none, some ⟨"tel2px", "TCP", 8080, "img:1", "hello"⟩⟩
        ⟨"hello", [⟨"hello", "img:0", [], [⟨"tel2px", "TCP", 8080⟩], [], [], [],
          none, none, none⟩]⟩).2.1).2.1 ≠
    (deploymentActions.Do
      ⟨"v1", "hello", "", none, some ⟨"tel2px", "TCP", 8080, "img:1", "hello"⟩⟩
      ⟨"hello", [⟨"hello", "img:0", [], [⟨"tel2px", "TCP", 8080⟩], [], [], [],
        none, none, none⟩]⟩).2.1 := by
  refine ⟨by decide, by decide, by decide⟩

/-- Witness for the amended C2 at the `hello` fixture (agent part) and a
one-port service (makePortSymbolic part). -/
theorem c2_second_do_appends_agent_witness :
    (∃ c ∈ ([⟨"hello", "img:0", [], [⟨"tel2px", "TCP", 8080⟩], [], [], [],
        none, none, none⟩] : List Container), c.name = "hello") ∧
    (([] : List ServicePort) ++ ⟨"http", 80, IntOrString.fromInt 8080⟩ :: [] =
      [⟨"http", 80, IntOrString.fromInt 8080⟩]) ∧
    (∀ q ∈ ([] : List ServicePort),
      mpsMatch ⟨"http", 8080, "sym"⟩ (IntOrString.fromInt 8080) q = false) ∧
    mpsMatch ⟨"http", 8080, "sym"⟩ (IntOrString.fromInt 8080)
      ⟨"http", 80, IntOrString.fromInt 8080⟩ = true ∧
    ((∃ acts dep1 acts2 dep2,
      deploymentActions.Do
        ⟨"v1", "hello", "", none, some ⟨"tel2px", "TCP", 8080, "img:1", "hello"⟩⟩
        ⟨"hello", [⟨"hello", "img:0", [], [⟨"tel2px", "TCP", 8080⟩], [], [], [],
          none, none, none⟩]⟩ = (acts, dep1, none) ∧
      deploymentActions.Do
        ⟨"v1", "hello", "", none, some ⟨"tel2px", "TCP", 8080, "img:1", "hello"⟩⟩
        dep1 = (acts2, dep2, none) ∧
      (∃ ag, ag.name = agentContainerName ∧
        dep1.containers = [⟨"hello", "img:0", [], [⟨"tel2px", "TCP", 8080⟩], [], [], [],
          none, none, none⟩] ++ [ag] ∧
        dep2.containers = dep1.containers ++ [ag]) ∧
      dep2 ≠ dep1) ∧
    (∃ svc2 e, makePortSymbolicAction.Do ⟨"http", 8080, "sym"⟩
        ⟨"s", [⟨"http", 80, IntOrString.fromInt 8080⟩]⟩ = .ok svc2 ∧
      makePortSymbolicAction.Do ⟨"http", 8080, "sym"⟩ svc2 = .error e)) :=
  ⟨by decide, by decide, by decide, by decide,
    c2_second_do_appends_agent "v1" "hello" ""
      ⟨"tel2px", "TCP", 8080, "img:1", "hello"⟩
      ⟨"hello", [⟨"hello", "img:0", [], [⟨"tel2px", "TCP", 8080⟩], [], [], [],
        none, none, none⟩]⟩
      ⟨"http", 8080, "sym"⟩ ⟨"s", [⟨"http", 80, IntOrString.fromInt 8080⟩]⟩
      [] [] ⟨"http", 80, IntOrString.fromInt 8080⟩
      (by decide) rfl (by decide) (by decide) (by decide)⟩

/-- Counterexample to C3 as stated: the JSON key carrying the referenced
service name is not "referenced_service" — the field has no json tag, so
`encoding/json` uses the Go field name "ReferencedService". -/
theorem c3_counterexample :
    (deploymentActionsFields.map goField.jsonKey).contains "referenced_service" = false ∧
    (deploymentActionsFields.map goField.jsonKey).contains "ReferencedService" = true := by
  decide

/-- C3 (amended): the persisted workload-annotation keys are exactly
"version", "ReferencedService" (Go field name: no json tag),
"referenced_service_port_name", "hide_container_port" and
"add_traffic_agent"; the agent stanza uses "container_port_name",
"container_port_proto", "app_port" and "image_name". -/
theorem c3_field_keys :
    deploymentActionsFields.map goField.jsonKey =
      ["version", "ReferencedService", "referenced_service_port_name",
       "hide_container_port", "add_traffic_agent"] ∧
    addTrafficAgentActionFields.map goField.jsonKey =
      ["container_port_name", "container_port_proto", "app_port", "image_name"] := by
  decide

/-- Counterexample to C4 as stated: `addTrafficAgentAction.Undo` does not
error when the post-do marker (an agent-named container) is absent — it
succeeds and leaves the object unchanged. -/
theorem c4_counterexample :
    addTrafficAgentAction.IsDone ⟨"tel2px", "TCP", 8080, "img:1", "hello"⟩
      ⟨"hello", [⟨"hello", "img:0", [], [⟨"tel2px", "TCP", 8080⟩], [], [], [],
        none, none, none⟩]⟩ = false ∧
    addTrafficAgentAction.Undo ⟨"tel2px", "TCP", 8080, "img:1", "hello"⟩
      ⟨"hello", [⟨"hello", "img:0", [], [⟨"tel2px", "TCP", 8080⟩], [], [], [],
        none, none, none⟩]⟩ =
      .ok ⟨"hello", [⟨"hello", "img:0", [], [⟨"tel2px", "TCP", 8080⟩], [], [], [],
        none, none, none⟩]⟩ :=
  ⟨by decide, rfl⟩

/-- C4 (amended): when the post-do marker is absent,
`makePortSymbolicAction.Undo`, `addSymbolicPortAction.Undo` and
`hideContainerPortAction.Undo` return an error and leave the object
unchanged, while `addTrafficAgentAction.Undo` succeeds as a no-op, leaving
the object unchanged. -/
theorem c4_undo_without_marker
    (m : makePortSymbolicAction) (svcM : Service)
    (a : addSymbolicPortAction) (svcA : Service)
    (h : hideContainerPortAction) (depH : Deployment)
    (t : addTrafficAgentAction) (depT : Deployment)
    (hm : ∀ p ∈ svcM.ports, mpsMatch m (IntOrString.fromString m.SymbolicName) p = false)
    (ha : ∀ p ∈ svcA.ports, mpsMatch a.toMakePortSymbolic
      (IntOrString.fromString a.toMakePortSymbolic.SymbolicName) p = false)
    (hh : ∀ c ∈ depH.containers,
      (c.name == h.ContainerName && hasPortNamed h.HiddenName c) = false)
    (ht : ∀ c ∈ depT.containers, c.name ≠ agentContainerName) :
    (∃ e, undoActionsSvc [.mps m] svcM = (svcM, some e)) ∧
    (∃ e, undoActionsSvc [.asp a] svcA = (svcA, some e)) ∧
    (∃ e, undoActionsDep [.hide h] depH = (depH, some e)) ∧
    undoActionsDep [.addAgent t] depT = (depT, none) := by
  refine ⟨?_, ?_, ?_, ?_⟩
  · refine ⟨"unable to find target port " ++ m.PortName ++ " in Service " ++ svcM.name, ?_⟩
    simp [undoActionsSvc, undoListSvc, svcAction.Undo, makePortSymbolicAction.Undo,
      replaceFirst_eq_none hm]
  · refine ⟨"unable to find target port " ++ a.toMakePortSymbolic.PortName
      ++ " in Service " ++ svcA.name, ?_⟩
    simp [undoActionsSvc, undoListSvc, svcAction.Undo, addSymbolicPortAction.Undo,
      replaceFirst_eq_none ha]
  · refine ⟨"unable to locate port " ++ h.PortName ++ " in container "
      ++ h.ContainerName ++ " in deployment " ++ depH.name, ?_⟩
    simp [undoActionsDep, undoListDep, depAction.Undo, hideContainerPortAction.Undo,
      hcpMutate_eq_none hh, Except.map]
  · simp [undoActionsDep, undoListDep, depAction.Undo, addTrafficAgentAction.Undo,
      removeFirstAgent_id ht]

/-- Witness for the amended C4: fixtures in which no action's marker is
present. -/
theorem c4_undo_without_marker_witness :
    (∀ p ∈ ([⟨"http", 80, IntOrString.fromInt 8080⟩] : List ServicePort),
      mpsMatch ⟨"http", 8080, "sym"⟩ (IntOrString.fromString "sym") p = false) ∧
    (∀ p ∈ ([⟨"http", 80, ⟨.int, 0, ""⟩⟩] : List ServicePort),
      mpsMatch ⟨"http", 80, "sym"⟩ (IntOrString.fromString "sym") p = false) ∧
    (∀ c ∈ ([⟨"hello", "img:0", [], [⟨"http", "TCP", 8080⟩], [], [], [],
        none, none, none⟩] : List Container),
      (c.name == "hello" && hasPortNamed "tel2mv-http" c) = false) ∧
    (∀ c ∈ ([⟨"hello", "img:0", [], [⟨"http", "TCP", 8080⟩], [], [], [],
        none, none, none⟩] : List Container), c.name ≠ agentContainerName) ∧
    ((∃ e, undoActionsSvc [.mps ⟨"http", 8080, "sym"⟩]
        ⟨"s", [⟨"http", 80, IntOrString.fromInt 8080⟩]⟩ =
        (⟨"s", [⟨"http", 80, IntOrString.fromInt 8080⟩]⟩, some e)) ∧
    (∃ e, undoActionsSvc [.asp ⟨⟨"http", 80, "sym"⟩⟩]
        ⟨"s", [⟨"http", 80, ⟨.int, 0, ""⟩⟩]⟩ =
        (⟨"s", [⟨"http", 80, ⟨.int, 0, ""⟩⟩]⟩, some e)) ∧
    (∃ e, undoActionsDep [.hide ⟨"hello", "http", "tel2mv-http"⟩]
        ⟨"hello", [⟨"hello", "img:0", [], [⟨"http", "TCP", 8080⟩], [], [], [],
          none, none, none⟩]⟩ =
        (⟨"hello", [⟨"hello", "img:0", [], [⟨"http", "TCP", 8080⟩], [], [], [],
          none, none, none⟩]⟩, some e)) ∧
    undoActionsDep [.addAgent ⟨"tel2px", "TCP", 8080, "img:1", "hello"⟩]
        ⟨"hello", [⟨"hello", "img:0", [], [⟨"http", "TCP", 8080⟩], [], [], [],
          none, none, none⟩]⟩ =
        (⟨"hello", [⟨"hello", "img:0", [], [⟨"http", "TCP", 8080⟩], [], [], [],
          none, none, none⟩]⟩, none)) :=
  ⟨by decide, by decide, by decide, by decide,
    c4_undo_without_marker ⟨"http", 8080, "sym"⟩
      ⟨"s", [⟨"http", 80, IntOrString.fromInt 8080⟩]⟩
      ⟨⟨"http", 80, "sym"⟩⟩ ⟨"s", [⟨"http", 80, ⟨.int, 0, ""⟩⟩]⟩
      ⟨"hello", "http", "tel2mv-http"⟩
      ⟨"hello", [⟨"hello", "img:0", [], [⟨"http", "TCP", 8080⟩], [], [], [],
        none, none, none⟩]⟩
      ⟨"tel2px", "TCP", 8080, "img:1", "hello"⟩
      ⟨"hello", [⟨"hello", "img:0", [], [⟨"http", "TCP", 8080⟩], [], [], [],
        none, none, none⟩]⟩
      (by decide) (by decide) (by decide) (by decide)⟩

/-- C5 (code bug): `hideContainerPortAction.Do` renames the port to
`"tel2mv-" + original` and rewrites the string probe reference while
leaving the numeric probe reference untouched, but it does not enforce the
15-character limit its own comment ("New name must be max 15 characters
long") demands: for the port name "verylongname" the hidden name
"tel2mv-verylongname" is 19 characters long. -/
theorem c5_hidden_name_exceeds_limit :
    hideContainerPortAction.Do ⟨"app", "verylongname", ""⟩
      ⟨"hello", [⟨"app", "img", [], [⟨"verylongname", "TCP", 8080⟩], [], [], [],
        some ⟨none, some ⟨⟨.str, 0, "verylongname"⟩⟩, none⟩,
        some ⟨none, none, some ⟨⟨.int, 8080, ""⟩⟩⟩, none⟩]⟩ =
    .ok (⟨"app", "verylongname", "tel2mv-verylongname"⟩,
      ⟨"hello", [⟨"app", "img", [], [⟨"tel2mv-verylongname", "TCP", 8080⟩], [], [], [],
        some ⟨none, some ⟨⟨.str, 0, "tel2mv-verylongname"⟩⟩, none⟩,
        some ⟨none, none, some ⟨⟨.int, 8080, ""⟩⟩⟩, none⟩]⟩) ∧
    "tel2mv-verylongname".length = 19 ∧ 15 < "tel2mv-verylongname".length :=
  ⟨rfl, by decide, by decide⟩

/-- Counterexample to C6 as stated: a service whose only port has the
symbolic name as its string targetPort but carries a different port name:
the claim says `IsDone` is true (the symbolic name exists), yet the code's
`getPort` also requires the port's name to equal `PortName` and returns
false. -/
theorem c6_counterexample :
    (∃ p ∈ ([⟨"other", 80, IntOrString.fromString "sym"⟩] : List ServicePort),
      p.targetPort = IntOrString.fromString "sym") ∧
    makePortSymbolicAction.IsDone ⟨"web", 8080, "sym"⟩
      ⟨"s", [⟨"other", 80, IntOrString.fromString "sym"⟩]⟩ = false := by
  decide

/-- C6 (amended): `makePortSymbolicAction.IsDone` returns true iff some
service port has the string `SymbolicName` as its targetPort *and* carries
the action's `PortName` as its name. -/
theorem c6_isdone_characterization (m : makePortSymbolicAction) (svc : Service) :
    m.IsDone svc = true ↔
      ∃ p ∈ svc.ports, p.name = m.PortName ∧
        p.targetPort = IntOrString.fromString m.SymbolicName := by
  unfold makePortSymbolicAction.IsDone
  rw [List.any_eq_true]
  constructor
  · rintro ⟨p, hp, hq⟩
    simp only [mpsMatch, Bool.and_eq_true, beq_iff_eq] at hq
    exact ⟨p, hp, hq.2, hq.1⟩
  · rintro ⟨p, hp, hn, ht⟩
    exact ⟨p, hp, by simp [mpsMatch, hn, ht]⟩

theorem isDoneActionsSvc_iff {l : List svcAction} {svc : Service} :
    isDoneActionsSvc l svc = true ↔ ∀ ac ∈ l, ac.IsDone svc = true := by
  induction l with
  | nil => simp [isDoneActionsSvc]
  | cons ac rest ih => simp [isDoneActionsSvc, ih]

theorem isDoneActionsDep_iff {l : List depAction} {dep : Deployment} :
    isDoneActionsDep l dep = true ↔ ∀ ac ∈ l, ac.IsDone dep = true := by
  induction l with
  | nil => simp [isDoneActionsDep]
  | cons ac rest ih => simp [isDoneActionsDep, ih]

/-- C7: MultiAction composition on both plan kinds: `Do` applies the
children in declared order (`MakePortSymbolic` before `AddSymbolicPort`;
`HideContainerPort` before `AddTrafficAgent`), `Undo` applies them in
reverse order; both stop at the first child error and return it with the
object as mutated so far (already-applied children are not undone); and
`IsDone` is the conjunction of the children's `IsDone`. -/
theorem c7_multiaction_composition
    (v rs rsp : String) (m : makePortSymbolicAction) (a : addSymbolicPortAction)
    (svc : Service) (h : hideContainerPortAction) (t : addTrafficAgentAction)
    (dep : Deployment) :
    (svcActions.Do ⟨v, some m, some a⟩ svc =
      match m.Do svc with
      | .error e => (svc, some e)
      | .ok s1 =>
        match a.Do s1 with
        | .error e => (s1, some e)
        | .ok s2 => (s2, none)) ∧
    (svcActions.Undo ⟨v, some m, some a⟩ svc =
      match a.Undo svc with
      | .error e => (svc, some e)
      | .ok s1 =>
        match m.Undo s1 with
        | .error e => (s1, some e)
        | .ok s2 => (s2, none)) ∧
    (svcActions.IsDone ⟨v, some m, some a⟩ svc = (m.IsDone svc && a.IsDone svc)) ∧
    (deploymentActions.Do ⟨v, rs, rsp, some h, some t⟩ dep =
      match h.Do dep with
      | .error e => ([.hide h, .addAgent t], dep, some e)
      | .ok (h2, d1) =>
        match t.Do d1 with
        | .error e => ([.hide h2, .addAgent t], d1, some e)
        | .ok d2 => ([.hide h2, .addAgent t], d2, none)) ∧
    (deploymentActions.Undo ⟨v, rs, rsp, some h, some t⟩ dep =
      match t.Undo dep with
      | .error e => (dep, some e)
      | .ok d1 =>
        match h.Undo d1 with
        | .error e => (d1, some e)
        | .ok r => (r.2, none)) ∧
    (deploymentActions.IsDone ⟨v, rs, rsp, some h, some t⟩ dep =
      (h.IsDone dep && t.IsDone dep)) ∧
    (∀ s2 : svcActions, s2.IsDone svc = true ↔ ∀ ac ∈ s2.Actions, ac.IsDone svc = true) ∧
    (∀ d2 : deploymentActions, d2.IsDone dep = true ↔
      ∀ ac ∈ d2.Actions, ac.IsDone dep = true) := by
  refine ⟨?_, ?_, ?_, ?_, ?_, ?_, ?_, ?_⟩
  · cases h1 : m.Do svc with
    | error e =>
      simp [svcActions.Do, svcActions.Actions, doActionsSvc, svcAction.Do, h1]
    | ok s1 =>
      cases h2 : a.Do s1 with
      | error e =>
        simp [svcActions.Do, svcActions.Actions, doActionsSvc, svcAction.Do, h1, h2]
      | ok s2 =>
        simp [svcActions.Do, svcActions.Actions, doActionsSvc, svcAction.Do, h1, h2]
  · cases h1 : a.Undo svc with
    | error e =>
      simp [svcActions.Undo, svcActions.Actions, undoActionsSvc, undoListSvc,
        svcAction.Undo, h1]
    | ok s1 =>
      cases h2 : m.Undo s1 with
      | error e =>
        simp [svcActions.Undo, svcActions.Actions, undoActionsSvc, undoListSvc,
          svcAction.Undo, h1, h2]
      | ok s2 =>
        simp [svcActions.Undo, svcActions.Actions, undoActionsSvc, undoListSvc,
          svcAction.Undo, h1, h2]
  · simp [svcActions.IsDone, svcActions.Actions, isDoneActionsSvc, svcAction.IsDone]
  · cases hh : h.Do dep with
    | error e =>
      simp [deploymentActions.Do, deploymentActions.Actions, doActionsDep,
        depAction.Do, Except.map, hh]
    | ok pr =>
      obtain ⟨h2, d1⟩ := pr
      cases htt : t.Do d1 with
      | error e =>
        simp [deploymentActions.Do, deploymentActions.Actions, doActionsDep,
          depAction.Do, Except.map, hh, htt]
      | ok d2 =>
        simp [deploymentActions.Do, deploymentActions.Actions, doActionsDep,
          depAction.Do, Except.map, hh, htt]
  · cases htt : t.Undo dep with
    | error e =>
      simp [deploymentActions.Undo, deploymentActions.Actions, undoActionsDep,
        undoListDep, depAction.Undo, Except.map, htt]
    | ok d1 =>
      cases hhh : h.Undo d1 with
      | error e =>
        simp [deploymentActions.Undo, deploymentActions.Actions, undoActionsDep,
          undoListDep, depAction.Undo, Except.map, htt, hhh]
      | ok r =>
        simp [deploymentActions.Undo, deploymentActions.Actions, undoActionsDep,
          undoListDep, depAction.Undo, Except.map, htt, hhh]
  · simp [deploymentActions.IsDone, deploymentActions.Actions, isDoneActionsDep,
      depAction.IsDone]
  · intro s2
    exact isDoneActionsSvc_iff
  · intro d2
    exact isDoneActionsDep_iff

/-- C8 (amended): `addSymbolicPortAction.Do` succeeds exactly when some port
has the numeric `Port` equal to `TargetPort` with targetPort in the unset
variant (`Type Int`, `IntVal 0` — the port name is not consulted), and sets
the first such port's targetPort to the symbolic string; `Undo` succeeds
exactly when some port carries the string `SymbolicName` as targetPort *and*
the action's `PortName` as its name (it delegates to
`makePortSymbolicAction.getPort`), and resets that port's targetPort to the
zero variant, never writing back a numeric value. -/
theorem c8_addsymbolicport_semantics
    (a : addSymbolicPortAction) (svcI svcD svcU : Service)
    (l1 l3 : List ServicePort) (p : ServicePort)
    (k1 k3 : List ServicePort) (r : ServicePort)
    (hsplitD : svcD.ports = l1 ++ p :: l3)
    (hl1D : ∀ q ∈ l1, aspMatch (a.toMakePortSymbolic.TargetPort : Int) q = false)
    (hpD : aspMatch (a.toMakePortSymbolic.TargetPort : Int) p = true)
    (hsplitU : svcU.ports = k1 ++ r :: k3)
    (hk1U : ∀ q ∈ k1, mpsMatch a.toMakePortSymbolic
      (IntOrString.fromString a.toMakePortSymbolic.SymbolicName) q = false)
    (hrU : mpsMatch a.toMakePortSymbolic
      (IntOrString.fromString a.toMakePortSymbolic.SymbolicName) r = true) :
    ((∃ svc2, a.Do svcI = .ok svc2) ↔
      ∃ q ∈ svcI.ports, aspMatch (a.toMakePortSymbolic.TargetPort : Int) q = true) ∧
    a.Do svcD = .ok { svcD with ports := l1 ++
      { p with targetPort := IntOrString.fromString a.toMakePortSymbolic.SymbolicName } :: l3 } ∧
    ((∃ svc2, a.Undo svcI = .ok svc2) ↔
      ∃ q ∈ svcI.ports, mpsMatch a.toMakePortSymbolic
        (IntOrString.fromString a.toMakePortSymbolic.SymbolicName) q = true) ∧
    a.Undo svcU = .ok { svcU with ports := k1 ++
      { r with targetPort := ⟨.int, 0, ""⟩ } :: k3 } := by
  refine ⟨?_, ?_, ?_, ?_⟩
  · have hiff := replaceFirst_isSome (q := aspMatch (a.toMakePortSymbolic.TargetPort : Int))
      (g := fun q =>
        { q with targetPort := IntOrString.fromString a.toMakePortSymbolic.SymbolicName })
      (l := svcI.ports)
    unfold addSymbolicPortAction.Do
    cases hrf : replaceFirst (aspMatch (a.toMakePortSymbolic.TargetPort : Int))
        (fun q =>
          { q with targetPort := IntOrString.fromString a.toMakePortSymbolic.SymbolicName })
        svcI.ports with
    | none =>
      rw [hrf] at hiff
      simp only [Option.isSome_none, Bool.false_eq_true, false_iff] at hiff
      simp [hiff]
    | some ps =>
      rw [hrf] at hiff
      simp only [Option.isSome_some, true_iff] at hiff
      simp [hiff]
  · unfold addSymbolicPortAction.Do
    rw [hsplitD, replaceFirst_of_split hl1D hpD]
  · have hiff := replaceFirst_isSome (q := mpsMatch a.toMakePortSymbolic
        (IntOrString.fromString a.toMakePortSymbolic.SymbolicName))
      (g := fun q => { q with targetPort := (⟨.int, 0, ""⟩ : IntOrString) })
      (l := svcI.ports)
    unfold addSymbolicPortAction.Undo
    cases hrf : replaceFirst (mpsMatch a.toMakePortSymbolic
        (IntOrString.fromString a.toMakePortSymbolic.SymbolicName))
        (fun q => { q with targetPort := (⟨.int, 0, ""⟩ : IntOrString) })
        svcI.ports with
    | none =>
      rw [hrf] at hiff
      simp only [Option.isSome_none, Bool.false_eq_true, false_iff] at hiff
      simp [hiff]
    | some ps =>
      rw [hrf] at hiff
      simp only [Option.isSome_some, true_iff] at hiff
      simp [hiff]
  · unfold addSymbolicPortAction.Undo
    rw [hsplitU, replaceFirst_of_split hk1U hrU]

/-- Counterexample to C8 as stated: a service whose only port carries the
string symbolic targetPort under a different name: the claim's `Undo`
description ("locates the port whose targetPort is the string
symbolic_name") would reset it, but the code also requires the port name to
equal `PortName` and errors. -/
theorem c8_counterexample :
    (∃ p ∈ ([⟨"x", 80, IntOrString.fromString "sym"⟩] : List ServicePort),
      p.targetPort = IntOrString.fromString "sym") ∧
    addSymbolicPortAction.Undo ⟨⟨"y", 80, "sym"⟩⟩
      ⟨"s", [⟨"x", 80, IntOrString.fromString "sym"⟩]⟩ =
      .error "unable to find target port y in Service s" :=
  ⟨by decide, rfl⟩

/-- Witness for the amended C8 at a two-port fixture. -/
theorem c8_addsymbolicport_semantics_witness :
    (([⟨"web", 9090, IntOrString.fromInt 9090⟩] : List ServicePort) ++
        ⟨"http", 80, ⟨.int, 0, ""⟩⟩ :: [] =
      [⟨"web", 9090, IntOrString.fromInt 9090⟩, ⟨"http", 80, ⟨.int, 0, ""⟩⟩]) ∧
    (∀ q ∈ ([⟨"web", 9090, IntOrString.fromInt 9090⟩] : List ServicePort),
      aspMatch (80 : Int) q = false) ∧
    aspMatch (80 : Int) ⟨"http", 80, ⟨.int, 0, ""⟩⟩ = true ∧
    (∀ q ∈ ([] : List ServicePort),
      mpsMatch ⟨"http", 80, "sym"⟩ (IntOrString.fromString "sym") q = false) ∧
    mpsMatch ⟨"http", 80, "sym"⟩ (IntOrString.fromString "sym")
      ⟨"http", 80, IntOrString.fromString "sym"⟩ = true ∧
    (((∃ svc2, addSymbolicPortAction.Do ⟨⟨"http", 80, "sym"⟩⟩
        ⟨"s", [⟨"http", 80, ⟨.int, 0, ""⟩⟩]⟩ = .ok svc2) ↔
      ∃ q ∈ (⟨"s", [⟨"http", 80, ⟨.int, 0, ""⟩⟩]⟩ : Service).ports,
        aspMatch (80 : Int) q = true) ∧
    addSymbolicPortAction.Do ⟨⟨"http", 80, "sym"⟩⟩
      ⟨"s2", [⟨"web", 9090, IntOrString.fromInt 9090⟩, ⟨"http", 80, ⟨.int, 0, ""⟩⟩]⟩ =
      .ok ⟨"s2", [⟨"web", 9090, IntOrString.fromInt 9090⟩,
        ⟨"http", 80, IntOrString.fromString "sym"⟩]⟩ ∧
    ((∃ svc2, addSymbolicPortAction.Undo ⟨⟨"http", 80, "sym"⟩⟩
        ⟨"s", [⟨"http", 80, ⟨.int, 0, ""⟩⟩]⟩ = .ok svc2) ↔
      ∃ q ∈ (⟨"s", [⟨"http", 80, ⟨.int, 0, ""⟩⟩]⟩ : Service).ports,
        mpsMatch ⟨"http", 80, "sym"⟩ (IntOrString.fromString "sym") q = true) ∧
    addSymbolicPortAction.Undo ⟨⟨"http", 80, "sym"⟩⟩
      ⟨"s3", [⟨"http", 80, IntOrString.fromString "sym"⟩]⟩ =
      .ok ⟨"s3", [⟨"http", 80, ⟨.int, 0, ""⟩⟩]⟩) := by
  refine ⟨by decide, by decide, by decide, by decide, by decide, ?_⟩
  have h := c8_addsymbolicport_semantics ⟨⟨"http", 80, "sym"⟩⟩
    ⟨"s", [⟨"http", 80, ⟨.int, 0, ""⟩⟩]⟩
    ⟨"s2", [⟨"web", 9090, IntOrString.fromInt 9090⟩, ⟨"http", 80, ⟨.int, 0, ""⟩⟩]⟩
    ⟨"s3", [⟨"http", 80, IntOrString.fromString "sym"⟩]⟩
    [⟨"web", 9090, IntOrString.fromInt 9090⟩] [] ⟨"http", 80, ⟨.int, 0, ""⟩⟩
    [] [] ⟨"http", 80, IntOrString.fromString "sym"⟩
    rfl (by decide) (by decide) rfl (by decide) (by decide)
  exact ⟨h.1, h.2.1, h.2.2.1, h.2.2.2⟩

/-- C9: frame property of `addTrafficAgentAction`: `Do` leaves every
pre-existing container unchanged, appending exactly one new agent-named
container at the end; `Undo` never fails and only deletes agent-named
containers (the result is an order-preserving sublist of the input whose
non-agent containers are exactly those of the input, in order). -/
theorem c9_agent_frame
    (a : addTrafficAgentAction) (dep depU : Deployment)
    (happ : ∃ c ∈ dep.containers, c.name = a.containerName) :
    (∃ ag dep2, ag.name = agentContainerName ∧ a.Do dep = .ok dep2 ∧
      dep2.containers = dep.containers ++ [ag]) ∧
    (∃ dep3, a.Undo depU = .ok dep3 ∧
      List.Sublist dep3.containers depU.containers ∧
      dep3.containers.filter (fun c => !(c.name == agentContainerName)) =
        depU.containers.filter (fun c => !(c.name == agentContainerName))) := by
  constructor
  · obtain ⟨appC, hfind, hdo⟩ := ata_do_ok happ
    exact ⟨a.agentContainer dep.name appC,
      { dep with containers := dep.containers ++ [a.agentContainer dep.name appC] },
      rfl, hdo, rfl⟩
  · exact ⟨{ depU with containers := removeFirstAgent depU.containers }, rfl,
      removeFirstAgent_sublist depU.containers, removeFirstAgent_filter depU.containers⟩

/-- Witness for C9 at a deployment carrying an agent container between two
app containers. -/
theorem c9_agent_frame_witness :
    (∃ c ∈ ([⟨"hello", "img:0", [], [⟨"http", "TCP", 8080⟩], [], [], [],
        none, none, none⟩] : List Container), c.name = "hello") ∧
    ((∃ ag dep2, ag.name = agentContainerName ∧
      addTrafficAgentAction.Do ⟨"tel2px", "TCP", 8080, "img:1", "hello"⟩
        ⟨"hello", [⟨"hello", "img:0", [], [⟨"http", "TCP", 8080⟩], [], [], [],
          none, none, none⟩]⟩ = .ok dep2 ∧
      dep2.containers = [⟨"hello", "img:0", [], [⟨"http", "TCP", 8080⟩], [], [], [],
        none, none, none⟩] ++ [ag]) ∧
    (∃ dep3, addTrafficAgentAction.Undo ⟨"tel2px", "TCP", 8080, "img:1", "hello"⟩
        ⟨"two", [⟨"one", "i1", [], [], [], [], [], none, none, none⟩,
          ⟨"traffic-agent", "i2", [], [], [], [], [], none, none, none⟩,
          ⟨"three", "i3", [], [], [], [], [], none, none, none⟩]⟩ = .ok dep3 ∧
      List.Sublist dep3.containers
        [⟨"one", "i1", [], [], [], [], [], none, none, none⟩,
         ⟨"traffic-agent", "i2", [], [], [], [], [], none, none, none⟩,
         ⟨"three", "i3", [], [], [], [], [], none, none, none⟩] ∧
      dep3.containers.filter (fun c => !(c.name == agentContainerName)) =
        [⟨"one", "i1", [], [], [], [], [], none, none, none⟩,
         ⟨"traffic-agent", "i2", [], [], [], [], [], none, none, none⟩,
         ⟨"three", "i3", [], [], [], [], [], none, none, none⟩].filter
          (fun c => !(c.name == agentContainerName)))) :=
  ⟨by decide,
    c9_agent_frame ⟨"tel2px", "TCP", 8080, "img:1", "hello"⟩
      ⟨"hello", [⟨"hello", "img:0", [], [⟨"http", "TCP", 8080⟩], [], [], [],
        none, none, none⟩]⟩
      ⟨"two", [⟨"one", "i1", [], [], [], [], [], none, none, none⟩,
        ⟨"traffic-agent", "i2", [], [], [], [], [], none, none, none⟩,
        ⟨"three", "i3", [], [], [], [], [], none, none, none⟩]⟩
      (by decide)⟩

/-- C10: beyond the `TEL_APP_`-prefixed copies of the app env and the
documented fixed set, the agent environment contains — for every app
container — an unprefixed `TELEPRESENCE_CONTAINER` variable holding the app
container's name, and, when the app container has volume mounts, an
unprefixed `APP_MOUNTS` variable holding the fixed mount root
`/tel_app_mounts`. -/
theorem c10_agent_extra_env
    (agentName : String) (a : addTrafficAgentAction) (appC : Container) :
    (⟨"TELEPRESENCE_CONTAINER", appC.name, none⟩ : EnvVar) ∈
      addTrafficAgentAction.agentEnvironment agentName a appC ∧
    (appC.volumeMounts ≠ [] →
      (⟨"APP_MOUNTS", "/tel_app_mounts", none⟩ : EnvVar) ∈
        addTrafficAgentAction.agentEnvironment agentName a appC) := by
  constructor
  · simp [addTrafficAgentAction.agentEnvironment, addTrafficAgentAction.appEnvironment]
  · intro hm
    have hlen : 0 < appC.volumeMounts.length := List.length_pos.mpr hm
    simp [addTrafficAgentAction.agentEnvironment, hlen, telAppMountPoint]

/-- Witness for C10 at an app container with one volume mount and at a
mount-less app container (where only the unconditional conclusion applies). -/
theorem c10_agent_extra_env_witness :
    (([⟨"data", "/data"⟩] : List VolumeMount) ≠ []) ∧
    ((⟨"TELEPRESENCE_CONTAINER", "hello", none⟩ : EnvVar) ∈
      addTrafficAgentAction.agentEnvironment "hello"
        ⟨"tel2px", "TCP", 8080, "img:1", "hello"⟩
        ⟨"hello", "img:0", [], [], [], [], [⟨"data", "/data"⟩], none, none, none⟩) ∧
    ((⟨"APP_MOUNTS", "/tel_app_mounts", none⟩ : EnvVar) ∈
      addTrafficAgentAction.agentEnvironment "hello"
        ⟨"tel2px", "TCP", 8080, "img:1", "hello"⟩
        ⟨"hello", "img:0", [], [], [], [], [⟨"data", "/data"⟩], none, none, none⟩) ∧
    ((⟨"TELEPRESENCE_CONTAINER", "bare", none⟩ : EnvVar) ∈
      addTrafficAgentAction.agentEnvironment "hello"
        ⟨"tel2px", "TCP", 8080, "img:1", "bare"⟩
        ⟨"bare", "img:0", [], [], [], [], [], none, none, none⟩) :=
  ⟨by decide,
    (c10_agent_extra_env "hello" ⟨"tel2px", "TCP", 8080, "img:1", "hello"⟩
      ⟨"hello", "img:0", [], [], [], [], [⟨"data", "/data"⟩], none, none, none⟩).1,
    (c10_agent_extra_env "hello" ⟨"tel2px", "TCP", 8080, "img:1", "hello"⟩
      ⟨"hello", "img:0", [], [], [], [], [⟨"data", "/data"⟩], none, none, none⟩).2
      (by decide),
    (c10_agent_extra_env "hello" ⟨"tel2px", "TCP", 8080, "img:1", "bare"⟩
      ⟨"bare", "img:0", [], [], [], [], [], none, none, none⟩).1⟩
